import Mathlib

/-!
# CameraFactory: the camera registry of the V4L2 camera HAL

A shallow embedding of `CameraFactory.cpp`: the registry object (four parallel
arrays and a counter), the HAL handlers `cameraDeviceOpen`, `getCameraNum`,
`getCameraInfo`, and the discovery pass `parseConfig` / `newCameraConfig`.

Conventions of the embedding.

* A C string is the list of its characters, without the terminating NUL.
* An array is a list; a NULL array pointer is the empty list.  The program
  only ever holds arrays of `mCameraNum` elements (see `WF`), so growing an
  array with `realloc` to `mCameraNum + 1` elements and storing into the last
  slot is an append.  Allocation is assumed to succeed, and `mCameraNum`
  (one increment per stored record) stays far below the range of `int`.
* The collaborators that the file calls but does not define (the V4L2 probe,
  `access`, `property_get`, the `CameraHardware` driver object) are the fields
  of `Env`.  Every call to one of them is appended to the `trace` of the
  `Machine`, so that "is called" and "is constructed" are statements about the
  trace.  Logging is not modelled.
* A `%d` conversion of `sscanf` stores into an `int`.  The C library converts
  the digits through a 64-bit integer, saturating there (`strtoimax` in
  bionic, `strtol` in a 64-bit glibc), and the store keeps the low 32 bits:
  `4294967386` is stored as 90 (`scanD`, `toInt32`, `clamp64`).
* The configuration file is the list of its characters, read by `fgets` into
  the 128-byte buffer `line`: one call returns a whole line of the file when
  the line has at most 127 characters, newline included, and otherwise the
  next 127 characters.  What the uninitialised `arg1`, `arg2`, `arg3` hold
  before the first `sscanf` is a parameter of `parseConfig`.
* Definitions whose comment starts with "Spec:" word the configuration format
  as the specification does; they are compared with the code, not part of it.
-/

namespace android

/-- A C string: its characters up to, and without, the terminating NUL. -/
abbrev CStr := List Char

/-- The address of the `hw_module_t` handed to `cameraDeviceOpen`. -/
abbrev hw_module_t := Nat

/-- The value of `EINVAL` in `errno.h`. -/
def EINVAL : Int := 22

/-- The value of `CAMERA_FACING_BACK` in the Android camera headers. -/
def CAMERA_FACING_BACK : Int := 0

/-- The value of `CAMERA_FACING_FRONT` in the Android camera headers. -/
def CAMERA_FACING_FRONT : Int := 1

/-- A driver object made by `new CameraHardware(module, location)`.  `serial`
is the identity of the object: the number of driver objects the factory had
constructed before this one, so two objects made by two `new` expressions
differ even when their arguments agree. -/
structure CameraHardware where
  serial : Nat
  module : hw_module_t
  location : CStr
deriving DecidableEq, Repr

/-- The calls that leave the file, in the order they are made. -/
inductive Event where
  /-- `camera.Open(location)` in `newCameraConfig`. -/
  | v4l2Open (location : CStr)
  /-- `camera.getBestPreviewFmt().getFps()` in `newCameraConfig`. -/
  | v4l2GetFps (location : CStr)
  /-- `access(camera_node, F_OK)` in the fallback loop. -/
  | access (path : CStr)
  /-- `property_get(camera_prop, prop, "")` in the fallback loop. -/
  | property_get (key : CStr)
  /-- `new CameraHardware(module, location)` in `cameraDeviceOpen`. -/
  | newCameraHardware (module : hw_module_t) (location : CStr)
  /-- `h->connectCamera(device)` in `cameraDeviceOpen`. -/
  | connectCamera (h : CameraHardware)
  /-- `CameraHardware::getCameraInfo(info, facing, orientation)`. -/
  | getCameraInfo (facing orientation : Int)
deriving DecidableEq, Repr

/-- The answers of the collaborators. -/
structure Env where
  /-- `V4L2Camera::Open(location)`: 0 when the device could be opened. -/
  v4l2Open : CStr → Int
  /-- The frame rate of the best preview format of the device at `location`. -/
  v4l2GetFps : CStr → Int
  /-- `access(path, F_OK)`: 0 when the path exists. -/
  access : CStr → Int
  /-- The value `property_get(key, prop, "")` leaves in `prop`: the value of
  the property, or the default `""` when it is not set. -/
  property_get : CStr → CStr
  /-- The status of `h->connectCamera(device)`; it may depend on everything
  that happened before the call. -/
  connectCamera : List Event → CameraHardware → Int
  /-- The status of `CameraHardware::getCameraInfo(info, facing, orientation)`. -/
  getCameraInfo : Int → Int → Int

/-- The data members of `class CameraFactory`. -/
structure CameraFactory where
  /-- `CameraHardware** mCamera`; `none` is a NULL element. -/
  mCamera : List (Option CameraHardware)
  /-- `char** mCameraDevices`. -/
  mCameraDevices : List CStr
  /-- `int* mCameraFacing`. -/
  mCameraFacing : List Int
  /-- `int* mCameraOrientation`. -/
  mCameraOrientation : List Int
  /-- `int mCameraNum`. -/
  mCameraNum : Int
deriving DecidableEq, Repr

/-- The global `gCameraFactory` together with the calls made so far. -/
structure Machine where
  factory : CameraFactory
  trace : List Event
deriving DecidableEq, Repr

/-- The factory when the constructor calls `parseConfig`: the four array
pointers are set to NULL, and `mCameraNum` is 0 because `gCameraFactory` has
static storage and is zero-initialised before its constructor runs. -/
def CameraFactory.init : CameraFactory :=
  { mCamera := [], mCameraDevices := [], mCameraFacing := [],
    mCameraOrientation := [], mCameraNum := 0 }

/-- The machine before discovery. -/
def Machine.init : Machine := { factory := CameraFactory.init, trace := [] }

/-- The four arrays hold `mCameraNum` elements each. -/
def WF (f : CameraFactory) : Prop :=
  (f.mCamera.length : Int) = f.mCameraNum ∧
  (f.mCameraDevices.length : Int) = f.mCameraNum ∧
  (f.mCameraFacing.length : Int) = f.mCameraNum ∧
  (f.mCameraOrientation.length : Int) = f.mCameraNum

instance (f : CameraFactory) : Decidable (WF f) :=
  inferInstanceAs (Decidable (_ ∧ _ ∧ _ ∧ _))

/-- `CameraFactory::getCameraNum`. -/
def getCameraNum (f : CameraFactory) : Int := f.mCameraNum

/-- The number of `new CameraHardware` expressions evaluated in a trace. -/
def constructions : List Event → Nat
  | [] => 0
  | Event.newCameraHardware _ _ :: t => constructions t + 1
  | _ :: t => constructions t

/-- The two statements `if (!mCamera[camera_id]) mCamera[camera_id] = new
CameraHardware(module, mCameraDevices[camera_id]);` of `cameraDeviceOpen`,
for `i = camera_id`.  Returns the machine and the value of
`mCamera[camera_id]` afterwards. -/
def ensureCamera (module : hw_module_t) (i : Nat) (m : Machine) :
    CameraHardware × Machine :=
  match m.factory.mCamera.getD i none with
  | some h => (h, m)
  | none =>
    let location := m.factory.mCameraDevices.getD i []
    let h : CameraHardware :=
      { serial := constructions m.trace, module := module, location := location }
    (h, { factory := { m.factory with mCamera := m.factory.mCamera.set i (some h) },
          trace := m.trace ++ [Event.newCameraHardware module location] })

/-- `CameraFactory::cameraDeviceOpen(module, camera_id, device)`: the status
returned and the machine afterwards.  The out-parameter `*device` is not part
of the registry and is not modelled. -/
def cameraDeviceOpen (env : Env) (module : hw_module_t) (camera_id : Int)
    (m : Machine) : Int × Machine :=
  if m.factory.mCamera = [] ∨ camera_id < 0 ∨ camera_id ≥ getCameraNum m.factory then
    (-EINVAL, m)
  else
    let (h, m1) := ensureCamera module camera_id.toNat m
    (env.connectCamera m1.trace h,
     { m1 with trace := m1.trace ++ [Event.connectCamera h] })

/-- `CameraFactory::getCameraInfo(camera_id, info)`: the status returned and
the machine afterwards.  What is written to `*info` is the work of the
formatter, which receives the two values recorded in the trace. -/
def getCameraInfo (env : Env) (camera_id : Int) (m : Machine) : Int × Machine :=
  if camera_id < 0 ∨ camera_id ≥ getCameraNum m.factory then
    (-EINVAL, m)
  else
    let facing := m.factory.mCameraFacing.getD camera_id.toNat 0
    let orientation := m.factory.mCameraOrientation.getD camera_id.toNat 0
    (env.getCameraInfo facing orientation,
     { m with trace := m.trace ++ [Event.getCameraInfo facing orientation] })

/-- `CameraFactory::newCameraConfig(facing, location, orientation)`. -/
def newCameraConfig (env : Env) (facing : Int) (location : CStr) (orientation : Int)
    (m : Machine) : Machine :=
  if env.v4l2Open location ≠ 0 then
    { m with trace := m.trace ++ [Event.v4l2Open location] }
  else if env.v4l2GetFps location = 0 then
    { m with trace := m.trace ++ [Event.v4l2Open location, Event.v4l2GetFps location] }
  else
    { factory :=
        { mCamera := m.factory.mCamera ++ [none],
          mCameraDevices := m.factory.mCameraDevices ++ [location],
          mCameraFacing := m.factory.mCameraFacing ++ [facing],
          mCameraOrientation := m.factory.mCameraOrientation ++ [orientation],
          mCameraNum := m.factory.mCameraNum + 1 },
      trace := m.trace ++ [Event.v4l2Open location, Event.v4l2GetFps location] }

/-- The test of `newCameraConfig`: the device opens and the best preview format
has a non-zero frame rate. -/
def probeOk (env : Env) (location : CStr) : Bool :=
  env.v4l2Open location == 0 && env.v4l2GetFps location != 0

/-! ## The C library calls of `parseConfig` -/

/-- `isspace` in the C locale. -/
def isspace (c : Char) : Bool :=
  c == ' ' || c == '\t' || c == '\n' || c == '\x0b' || c == '\x0c' || c == '\r'

/-- `isdigit`. -/
def isdigit (c : Char) : Bool := '0'.toNat ≤ c.toNat && c.toNat ≤ '9'.toNat

/-- The C string held by a buffer: the characters before the first NUL. -/
def cstr (buf : List Char) : CStr := buf.takeWhile (fun c => c != '\x00')

/-- `strspn(s, accept)`: the length of the longest initial part of `s` made of
characters of `accept`. -/
def strspn (s : CStr) (accept : CStr) : Nat := (s.takeWhile (fun c => accept.contains c)).length

/-- White space is skipped before a conversion and for a blank in the format. -/
def skipSpace (s : CStr) : CStr := s.dropWhile isspace

/-- The conversion `%s`: skips white space, then takes the characters up to the
next white space.  `none` when the input ends before a character is found.
Returns the string stored and the input left. -/
def scanS (s : CStr) : Option (CStr × CStr) :=
  match skipSpace s with
  | [] => none
  | c :: t => some ((c :: t).takeWhile (fun x => !isspace x), (c :: t).dropWhile (fun x => !isspace x))

/-- The value of a run of decimal digits. -/
def digitsValue (ds : List Char) : Nat :=
  ds.foldl (fun acc c => 10 * acc + (c.toNat - '0'.toNat)) 0

/-- The optional sign in front of the digits of a `%d` conversion: whether it
is a minus sign, and the input after the sign. -/
def scanSign (s : CStr) : Bool × CStr :=
  match s with
  | '-' :: t => (true, t)
  | '+' :: t => (false, t)
  | t => (false, t)

/-- The sign and the digits that a `%d` conversion takes: skips white space,
takes an optional sign and the decimal digits that follow.  `none` when there
is no digit.  Returns the number written, before it is stored, and the input
left. -/
def scanDigits (s : CStr) : Option (Int × CStr) :=
  let body := scanSign (skipSpace s)
  match body.2.takeWhile isdigit with
  | [] => none
  | d :: ds =>
    let n : Int := digitsValue (d :: ds)
    some (if body.1 then -n else n, body.2.dropWhile isdigit)

/-- `INT_MIN` of a 32-bit `int`. -/
def INT_MIN : Int := -2147483648

/-- `INT_MAX` of a 32-bit `int`. -/
def INT_MAX : Int := 2147483647

/-- The value the C library's string-to-integer conversion returns for the
number `n`: `n` itself when a 64-bit integer holds it, else the nearest of
the two ends of that range. -/
def clamp64 (n : Int) : Int :=
  if n < -9223372036854775808 then -9223372036854775808
  else if n > 9223372036854775807 then 9223372036854775807
  else n

/-- The value an `int` holds after `n` is stored into it: the low 32 bits of
`n` in two's complement. -/
def toInt32 (n : Int) : Int := (n + 2147483648) % 4294967296 - 2147483648

/-- The conversion `%d` into an `int`: the number that `scanDigits` reads,
converted by the library and stored into the `int`.  `none` when there is no
digit.  Returns the value of the `int` and the input left. -/
def scanD (s : CStr) : Option (Int × CStr) :=
  match scanDigits s with
  | none => none
  | some (n, rest) => some (toInt32 (clamp64 n), rest)

/-- The locals `arg1`, `arg2`, `arg3` of the configuration-file branch. -/
structure Args where
  arg1 : CStr
  arg2 : CStr
  arg3 : Int
deriving DecidableEq, Repr

/-- `sscanf(line, "%s %s %d", arg1, arg2, &arg3)`: the value returned (the
number of items stored, or -1 for `EOF`) and the three variables afterwards.
A variable whose conversion is not reached keeps its old value. -/
def sscanf_s_s_d (line : CStr) (a : Args) : Int × Args :=
  match scanS line with
  | none => (-1, a)
  | some (t1, r1) =>
    match scanS (skipSpace r1) with
    | none => (1, { a with arg1 := t1 })
    | some (t2, r2) =>
      match scanD (skipSpace r2) with
      | none => (2, { a with arg1 := t1, arg2 := t2 })
      | some (v, _) => (3, { arg1 := t1, arg2 := t2, arg3 := v })

/-- `sscanf(prop, "%d,%d", &facing, &orientation)`: the two variables
afterwards.  The comma of the format has to be the next character. -/
def sscanf_d_d (prop : CStr) (facing orientation : Int) : Int × Int :=
  match scanD prop with
  | none => (facing, orientation)
  | some (v1, r1) =>
    match r1 with
    | ',' :: r2 =>
      match scanD r2 with
      | none => (v1, orientation)
      | some (v2, _) => (v1, v2)
    | _ => (v1, orientation)

/-- The characters `fgets` stores when the buffer has room for `room` more of
them, and the stream left: reading stops after a newline, at the end of the
stream, or when the room is used up. -/
def fgetsAux : Nat → List Char → List Char × List Char
  | 0, s => ([], s)
  | _ + 1, [] => ([], [])
  | room + 1, c :: s =>
    if c = '\n' then ([c], s)
    else ((fgetsAux room s).1.cons c, (fgetsAux room s).2)

/-- `fgets(line, size, config)`: `none` (NULL) at the end of the stream, else
the characters stored in `line` (at most `size - 1`) and the stream left. -/
def fgets (size : Nat) (stream : List Char) : Option (List Char × List Char) :=
  match stream with
  | [] => none
  | _ :: _ => some (fgetsAux (size - 1) stream)

/-! ## Discovery -/

/-- The statement `if (arg3 != 0 && arg3 != 90 && arg3 != 180 && arg3 != 270)
arg3 = 0;`. -/
def normalizeArg3 (arg3 : Int) : Int :=
  if arg3 ≠ 0 ∧ arg3 ≠ 90 ∧ arg3 ≠ 180 ∧ arg3 ≠ 270 then 0 else arg3

/-- The test `line[lineStart] == '#'` with `lineStart = strspn(line, " \t\n\v")`.
When the whole line is made of these four characters, `line[lineStart]` is the
terminating NUL. -/
def commentLine (line : CStr) : Bool :=
  line.getD (strspn line [' ', '\t', '\n', '\x0b']) '\x00' == '#'

/-- The body of `while (fgets(line, sizeof line, config) != NULL)`, for the
buffer `buf` that `fgets` filled. -/
def parseConfigLine (env : Env) (buf : List Char) (st : Args × Machine) : Args × Machine :=
  let line := cstr buf
  if commentLine line then
    st
  else
    let scanned := (sscanf_s_s_d line st.1).2
    let a : Args := { scanned with arg3 := normalizeArg3 scanned.arg3 }
    if a.arg1 = "front".toList then
      (a, newCameraConfig env CAMERA_FACING_FRONT a.arg2 a.arg3 st.2)
    else if a.arg1 = "back".toList then
      (a, newCameraConfig env CAMERA_FACING_BACK a.arg2 a.arg3 st.2)
    else
      (a, st.2)

/-- The loop `while (fgets(line, sizeof line, config) != NULL) { ... }` run for
at most `fuel` iterations. -/
def parseLoop (env : Env) : Nat → List Char → Args × Machine → Args × Machine
  | 0, _, st => st
  | fuel + 1, stream, st =>
    match fgets 128 stream with
    | none => st
    | some (buf, rest) => parseLoop env fuel rest (parseConfigLine env buf st)

/-- The locals of the fallback branch that change: the characters
`camera_node[10]` and `camera_prop[11]` (as character codes) and `no_prop`. -/
structure Fallback where
  node10 : Nat
  prop11 : Nat
  no_prop : Bool
deriving DecidableEq, Repr

/-- The string in `camera_node`. -/
def Fallback.camera_node (l : Fallback) : CStr := "/dev/video".toList ++ [Char.ofNat l.node10]

/-- The string in `camera_prop`. -/
def Fallback.camera_prop (l : Fallback) : CStr := "hal.camera.".toList ++ [Char.ofNat l.prop11]

/-- The condition `camera_node[10] <= '9' && mCameraNum < 3`. -/
def fallbackCond (st : Fallback × Machine) : Bool :=
  decide (st.1.node10 ≤ '9'.toNat) && decide (st.2.factory.mCameraNum < 3)

/-- The body of the fallback loop. -/
def fallbackBody (env : Env) (st : Fallback × Machine) : Fallback × Machine :=
  let l := st.1
  let m1 : Machine := { st.2 with trace := st.2.trace ++ [Event.access l.camera_node] }
  if env.access l.camera_node = 0 then
    let facing := st.2.factory.mCameraNum
    let orientation : Int := 0
    let prop := env.property_get l.camera_prop
    let m2 : Machine := { m1 with trace := m1.trace ++ [Event.property_get l.camera_prop] }
    if prop.length ≠ 0 then
      let r := sscanf_d_d prop facing orientation
      ({ node10 := l.node10 + 1, prop11 := l.prop11 + 1, no_prop := false },
       newCameraConfig env r.1 l.camera_node r.2 m2)
    else
      ({ l with node10 := l.node10 + 1, prop11 := l.prop11 + 1 },
       newCameraConfig env facing l.camera_node orientation m2)
  else
    ({ l with node10 := l.node10 + 1, prop11 := l.prop11 + 1 }, m1)

/-- The fallback loop run for at most `fuel` iterations. -/
def fallbackLoopAux (env : Env) : Nat → Fallback × Machine → Fallback × Machine
  | 0, st => st
  | fuel + 1, st =>
    if fallbackCond st then fallbackLoopAux env fuel (fallbackBody env st) else st

/-- The loop `while (camera_node[10] <= '9' && mCameraNum < 3) { ... }`.  Each
iteration increments `camera_node[10]`, so `'9' + 1 - camera_node[10]`
iterations are enough (`fallbackLoop_unfold`). -/
def fallbackLoop (env : Env) (st : Fallback × Machine) : Fallback × Machine :=
  fallbackLoopAux env ('9'.toNat + 1 - st.1.node10) st

/-- `CameraFactory::parseConfig(configFile)`.  `config` is the content of the
file when `fopen` succeeds and `none` when it returns NULL; `uninit` is what
the uninitialised `arg1`, `arg2`, `arg3` happen to hold.  Each `fgets` call
takes at least one character, so the length of the file bounds the number of
iterations (`parseLoop_unfold`). -/
def parseConfig (env : Env) (config : Option (List Char)) (uninit : Args) (m : Machine) :
    Machine :=
  match config with
  | some stream => (parseLoop env stream.length stream (uninit, m)).2
  | none =>
    (fallbackLoop env ({ node10 := '0'.toNat, prop11 := '0'.toNat, no_prop := true }, m)).2

/-! ## Sequences of handler calls -/

/-- A call of one of the two HAL handlers that take an id. -/
inductive Call where
  | openDevice (module : hw_module_t) (camera_id : Int)
  | getInfo (camera_id : Int)
deriving DecidableEq, Repr

/-- The machine after one handler call. -/
def Call.run (env : Env) : Call → Machine → Machine
  | Call.openDevice module camera_id, m => (cameraDeviceOpen env module camera_id m).2
  | Call.getInfo camera_id, m => (getCameraInfo env camera_id m).2

/-- The machine after a sequence of handler calls, made one after the other. -/
def runCalls (env : Env) (calls : List Call) (m : Machine) : Machine :=
  calls.foldl (fun acc c => c.run env acc) m

/-! ## The lines of the configuration file -/

/-- The buffers that the successive `fgets(line, 128, config)` calls return,
for at most `fuel` calls. -/
def fgetsLinesAux : Nat → List Char → List (List Char)
  | 0, _ => []
  | fuel + 1, stream =>
    match fgets 128 stream with
    | none => []
    | some (buf, rest) => buf :: fgetsLinesAux fuel rest

/-- The lines of a file as the loop of `parseConfig` reads them: a text line
with its newline when that fits in 127 characters, and otherwise pieces of
127 characters followed by the rest of the text line. -/
def fgetsLines (stream : List Char) : List (List Char) :=
  fgetsLinesAux stream.length stream

/-! ## The configuration format, as the specification words it -/

/-- Spec: the whitespace-separated tokens of a line. -/
def specTokens (line : List Char) : List (List Char) :=
  (line.splitOnP isspace).filter (fun t => !t.isEmpty)

/-- Spec: a comment is a line whose first non-whitespace character is `#`. -/
def specComment (line : List Char) : Bool :=
  (line.dropWhile isspace).head? == some '#'

/-- Spec: the integer written by a token; an optional sign and decimal digits. -/
def specInteger (token : List Char) : Option Int :=
  match token with
  | '-' :: ds => if ds ≠ [] ∧ ds.all isdigit then some (-(digitsValue ds : Int)) else none
  | '+' :: ds => if ds ≠ [] ∧ ds.all isdigit then some (digitsValue ds : Int) else none
  | ds => if ds ≠ [] ∧ ds.all isdigit then some (digitsValue ds : Int) else none

/-- Spec: `front` is FRONT and `back` is BACK; any other keyword is none. -/
def specFacing (keyword : List Char) : Option Int :=
  if keyword = "front".toList then some CAMERA_FACING_FRONT
  else if keyword = "back".toList then some CAMERA_FACING_BACK
  else none

/-- Spec: an orientation that is not one of 0, 90, 180, 270 is normalised to 0. -/
def specOrientation (v : Int) : Int :=
  if v = 0 ∨ v = 90 ∨ v = 180 ∨ v = 270 then v else 0

/-- What a line of the configuration declares. -/
structure Entry where
  facing : Int
  location : CStr
  orientation : Int
deriving DecidableEq, Repr

/-- Spec: a line of exactly three tokens, a facing keyword, a location and an
integer orientation, declares a camera. -/
def specEntry (line : List Char) : Option Entry :=
  match specTokens line with
  | [keyword, location, orientation] =>
    match specFacing keyword, specInteger orientation with
    | some f, some v => some { facing := f, location := location, orientation := specOrientation v }
    | _, _ => none
  | _ => none

/-- The integer that the third token of a line of three tokens writes is in
the range of a 32-bit `int`; true also of a line that writes none. -/
def orientationFitsInt (line : List Char) : Bool :=
  match specTokens line with
  | [_, _, orientation] =>
    match specInteger orientation with
    | some v => decide (INT_MIN ≤ v ∧ v ≤ INT_MAX)
    | none => true
  | _ => true

/-- The line holds no NUL character. -/
def noNul (line : List Char) : Bool := line.all (fun c => c != '\x00')

/-- No line is processed before `arg1`, `arg2` and `arg3` have been stored:
the buffers before the first one that is not skipped as a comment are
skipped, and `sscanf` stores three items from that one (or every buffer is
skipped). -/
def fillsFirst : List (List Char) → Bool
  | [] => true
  | buf :: rest =>
    if commentLine (cstr buf) then fillsFirst rest
    else (sscanf_s_s_d (cstr buf) { arg1 := [], arg2 := [], arg3 := 0 }).1 == 3

/-- Spec: the registry that holds the given records, in order, none of them
opened yet. -/
def specRegistry (es : List Entry) : CameraFactory :=
  { mCamera := es.map (fun _ => none),
    mCameraDevices := es.map (fun e => e.location),
    mCameraFacing := es.map (fun e => e.facing),
    mCameraOrientation := es.map (fun e => e.orientation),
    mCameraNum := es.length }

/-- Spec: the lines of a text, each with the newline that ends it; the last
line may lack one. -/
def specLines : List Char → List (List Char)
  | [] => []
  | c :: s =>
    if c = '\n' then [c] :: specLines s
    else
      match specLines s with
      | [] => [[c]]
      | l :: ls => (c :: l) :: ls

/-- Spec: the cameras declared by the lines of the file whose location probes
successfully, in file order. -/
def specTable (env : Env) (content : List Char) : List Entry :=
  ((specLines content).filterMap specEntry).filter (fun e => probeOk env e.location)

/-! ## Sample inputs -/

/-- Every device exists, opens and offers 30 frames per second; no property is
set; the driver reports success. -/
def envAllOk : Env :=
  { v4l2Open := fun _ => 0, v4l2GetFps := fun _ => 30, access := fun _ => 0,
    property_get := fun _ => [], connectCamera := fun _ _ => 0,
    getCameraInfo := fun _ _ => 0 }

/-- No device can be opened. -/
def envNoDevice : Env :=
  { v4l2Open := fun _ => -1, v4l2GetFps := fun _ => 0, access := fun _ => -1,
    property_get := fun _ => [], connectCamera := fun _ _ => 0,
    getCameraInfo := fun _ _ => 0 }

/-- What the three locals hold before the first line is read, in the samples. -/
def sampleUninit : Args := { arg1 := [], arg2 := [], arg3 := 0 }

/-- The file with the lines `front /dev/video0 0` and `back /dev/video1 180`. -/
def sampleConfig : List Char := "front /dev/video0 0\nback /dev/video1 180\n".toList

/-- The machine after discovery from `sampleConfig` with every probe succeeding. -/
def sampleMachine : Machine := parseConfig envAllOk (some sampleConfig) sampleUninit Machine.init

/-- The loop state after a line `front /dev/video0 0` was processed. -/
def sampleLoopState : Args × Machine :=
  ({ arg1 := "front".toList, arg2 := "/dev/video0".toList, arg3 := 0 }, sampleMachine)

/-- A line of 147 characters: a comment of 127 characters and, on the same
line, the text of an entry. -/
def longComment : List Char :=
  '#' :: List.replicate 126 'x' ++ "front /dev/video0 0\n".toList

/-- A line of 147 characters: `rear`, 123 blanks and the text of an entry. -/
def longUnknown : List Char :=
  "rear".toList ++ List.replicate 123 ' ' ++ "front /dev/video0 0\n".toList

/-- A file of two entry lines, the second with 123 blanks after its keyword. -/
def longEntryConfig : List Char :=
  "front /dev/video0 0\n".toList ++
    ("back".toList ++ List.replicate 123 ' ' ++ "/dev/video1 180\n".toList)

/-- A file of two entry lines whose orientations do not fit an `int`:
`4294967386` is 2^32 + 90 and `-4294967026` is 270 - 2^32. -/
def wideConfig : List Char :=
  "front /dev/video0 4294967386\nback /dev/video1 -4294967026\n".toList

/-- A file of two entry lines, the second with a NUL character at the end of
its location. -/
def nulConfig : List Char := "front /dev/video0 0\nback /dev/video1\x00 180\n".toList

/-- A line of 20 characters that starts with a NUL character. -/
def nulUnknown : List Char := "\x00rear /dev/video0 0\n".toList

/-- Another content of the uninitialised `arg1`, `arg2` and `arg3`. -/
def frontUninit : Args := { arg1 := "front".toList, arg2 := "/dev/video0".toList, arg3 := 90 }

/-! ## The fallback loop, iteration by iteration -/

/-- The locals of the fallback branch before the first iteration:
`camera_node = "/dev/video0"`, `camera_prop = "hal.camera.0"`, `no_prop = true`. -/
def fallbackInit (m : Machine) : Fallback × Machine :=
  ({ node10 := '0'.toNat, prop11 := '0'.toNat, no_prop := true }, m)

/-- The number of `access` calls in a trace. -/
def accessCount : List Event → Nat
  | [] => 0
  | Event.access _ :: t => accessCount t + 1
  | _ :: t => accessCount t

/-- The calls that only the fallback branch makes: `access` and `property_get`. -/
def isFallbackEvent : Event → Bool
  | Event.access _ => true
  | Event.property_get _ => true
  | _ => false

/-- The device node `/dev/video` followed by the digit `k`. -/
def videoNode (k : Nat) : CStr := "/dev/video".toList ++ [Nat.digitChar k]

/-- The property key `hal.camera.` followed by the digit `k`. -/
def cameraProp (k : Nat) : CStr := "hal.camera.".toList ++ [Nat.digitChar k]

/-- A call of discovery that names a candidate of index at most `bound`. -/
def eventWithin (bound : Nat) : Event → Bool
  | Event.access p => (List.range (bound + 1)).any (fun k => p == videoNode k)
  | Event.v4l2Open p => (List.range (bound + 1)).any (fun k => p == videoNode k)
  | Event.v4l2GetFps p => (List.range (bound + 1)).any (fun k => p == videoNode k)
  | Event.property_get p => (List.range (bound + 1)).any (fun k => p == cameraProp k)
  | _ => false

/-- The number of records in the registry whose device is a candidate of
index below `k`. -/
def acceptedBelow (k : Nat) (f : CameraFactory) : Nat :=
  (f.mCameraDevices.filter (fun d => (List.range k).any (fun j => d == videoNode j))).length

/-- The locals and the machine before iteration `k` of the fallback loop, when
the loop gets that far: the body applied `k` times from `fallbackInit`. -/
def fallbackState (env : Env) (m : Machine) (k : Nat) : Fallback × Machine :=
  (fallbackBody env)^[k] (fallbackInit m)

/-- Only `/dev/video0` exists; it opens and offers 30 frames per second; no
property is set. -/
def envOnlyVideo0 : Env :=
  { v4l2Open := fun _ => 0, v4l2GetFps := fun _ => 30,
    access := fun p => if p = "/dev/video0".toList then 0 else -1,
    property_get := fun _ => [], connectCamera := fun _ _ => 0,
    getCameraInfo := fun _ _ => 0 }

/-- The nodes `/dev/video0`, `/dev/video1` and `/dev/video2` do not exist; every
other node exists, opens and offers 30 frames per second; no property is set. -/
def envFromVideo3 : Env :=
  { v4l2Open := fun _ => 0, v4l2GetFps := fun _ => 30,
    access := fun p =>
      if p = "/dev/video0".toList ∨ p = "/dev/video1".toList ∨ p = "/dev/video2".toList
      then -1 else 0,
    property_get := fun _ => [], connectCamera := fun _ _ => 0,
    getCameraInfo := fun _ _ => 0 }

/-- Only `/dev/video0` exists; it opens and offers 30 frames per second; the
property `hal.camera.0` is set to `1,45`. -/
def envRotated : Env :=
  { v4l2Open := fun _ => 0, v4l2GetFps := fun _ => 30,
    access := fun p => if p = "/dev/video0".toList then 0 else -1,
    property_get := fun k => if k = "hal.camera.0".toList then "1,45".toList else [],
    connectCamera := fun _ _ => 0, getCameraInfo := fun _ _ => 0 }

/-! ## Lemmas on the handlers -/

theorem constructions_append (t u : List Event) :
    constructions (t ++ u) = constructions t + constructions u := by
  induction t with
  | nil => simp [constructions]
  | cons e t ih => cases e <;> simp [constructions, ih]; omega

theorem ensureCamera_present (module : hw_module_t) (i : Nat) (m : Machine) (h : CameraHardware)
    (hp : m.factory.mCamera[i]? = some (some h)) : ensureCamera module i m = (h, m) := by
  simp [ensureCamera, hp]

theorem ensureCamera_absent (module : hw_module_t) (i : Nat) (m : Machine)
    (hp : m.factory.mCamera[i]? = some none) :
    ensureCamera module i m =
      ({ serial := constructions m.trace, module := module,
         location := m.factory.mCameraDevices.getD i [] },
       { factory := { m.factory with
           mCamera := m.factory.mCamera.set i
             (some { serial := constructions m.trace, module := module,
                     location := m.factory.mCameraDevices.getD i [] }) },
         trace := m.trace ++
           [Event.newCameraHardware module (m.factory.mCameraDevices.getD i [])] }) := by
  simp [ensureCamera, hp]

/-- What `ensureCamera` leaves alone: everything but the slots of `mCamera`
that hold NULL. -/
theorem ensureCamera_frame (module : hw_module_t) (i : Nat) (m : Machine) :
    (ensureCamera module i m).2.factory.mCameraDevices = m.factory.mCameraDevices ∧
    (ensureCamera module i m).2.factory.mCameraFacing = m.factory.mCameraFacing ∧
    (ensureCamera module i m).2.factory.mCameraOrientation = m.factory.mCameraOrientation ∧
    (ensureCamera module i m).2.factory.mCameraNum = m.factory.mCameraNum ∧
    (ensureCamera module i m).2.factory.mCamera.length = m.factory.mCamera.length ∧
    (∀ j : Nat, j ≠ i → (ensureCamera module i m).2.factory.mCamera[j]? = m.factory.mCamera[j]?) ∧
    (∀ (j : Nat) (h : CameraHardware), m.factory.mCamera[j]? = some (some h) →
      (ensureCamera module i m).2.factory.mCamera[j]? = some (some h)) := by
  unfold ensureCamera
  cases hc : m.factory.mCamera.getD i none with
  | some h0 => simp
  | none =>
    simp only [List.length_set, true_and]
    refine ⟨?_, ?_⟩
    · intro j hj
      exact List.getElem?_set_ne (Ne.symm hj)
    · intro j h hp
      by_cases hji : j = i
      · subst hji
        simp [hp] at hc
      · rw [List.getElem?_set_ne (Ne.symm hji)]
        exact hp

theorem valid_id_lt (f : CameraFactory) (camera_id : Int) (hwf : WF f)
    (hid : 0 ≤ camera_id ∧ camera_id < getCameraNum f) :
    camera_id.toNat < f.mCamera.length ∧ camera_id.toNat < f.mCameraDevices.length ∧
    camera_id.toNat < f.mCameraFacing.length ∧ camera_id.toNat < f.mCameraOrientation.length := by
  obtain ⟨h1, h2, h3, h4⟩ := hwf
  unfold getCameraNum at hid
  omega

theorem cameraDeviceOpen_valid (env : Env) (module : hw_module_t) (camera_id : Int) (m : Machine)
    (hwf : WF m.factory) (hid : 0 ≤ camera_id ∧ camera_id < getCameraNum m.factory) :
    cameraDeviceOpen env module camera_id m =
      (env.connectCamera (ensureCamera module camera_id.toNat m).2.trace
          (ensureCamera module camera_id.toNat m).1,
       { (ensureCamera module camera_id.toNat m).2 with
         trace := (ensureCamera module camera_id.toNat m).2.trace ++
           [Event.connectCamera (ensureCamera module camera_id.toNat m).1] }) := by
  have hlt := (valid_id_lt m.factory camera_id hwf hid).1
  have hne : m.factory.mCamera ≠ [] := by
    intro h; rw [h] at hlt; simp at hlt
  unfold cameraDeviceOpen
  rw [if_neg]
  · intro h
    rcases h with h | h | h
    · exact hne h
    · omega
    · omega

theorem getCameraInfo_valid (env : Env) (camera_id : Int) (m : Machine)
    (hid : 0 ≤ camera_id ∧ camera_id < getCameraNum m.factory) :
    getCameraInfo env camera_id m =
      (env.getCameraInfo (m.factory.mCameraFacing.getD camera_id.toNat 0)
          (m.factory.mCameraOrientation.getD camera_id.toNat 0),
       { m with trace := m.trace ++
           [Event.getCameraInfo (m.factory.mCameraFacing.getD camera_id.toNat 0)
              (m.factory.mCameraOrientation.getD camera_id.toNat 0)] }) := by
  unfold getCameraInfo
  rw [if_neg]
  omega

/-- What a handler call never changes. -/
theorem Call.run_frame (env : Env) (c : Call) (m : Machine) :
    (c.run env m).factory.mCameraDevices = m.factory.mCameraDevices ∧
    (c.run env m).factory.mCameraFacing = m.factory.mCameraFacing ∧
    (c.run env m).factory.mCameraOrientation = m.factory.mCameraOrientation ∧
    (c.run env m).factory.mCameraNum = m.factory.mCameraNum ∧
    (c.run env m).factory.mCamera.length = m.factory.mCamera.length ∧
    (∀ (j : Nat) (h : CameraHardware), m.factory.mCamera[j]? = some (some h) →
      (c.run env m).factory.mCamera[j]? = some (some h)) := by
  cases c with
  | openDevice module camera_id =>
    simp only [Call.run, cameraDeviceOpen]
    split
    · simp
    · obtain ⟨h1, h2, h3, h4, h5, -, h7⟩ := ensureCamera_frame module camera_id.toNat m
      exact ⟨h1, h2, h3, h4, h5, h7⟩
  | getInfo camera_id =>
    simp only [Call.run, getCameraInfo]
    split <;> simp

theorem runCalls_frame (env : Env) (calls : List Call) (m : Machine) :
    (runCalls env calls m).factory.mCameraDevices = m.factory.mCameraDevices ∧
    (runCalls env calls m).factory.mCameraFacing = m.factory.mCameraFacing ∧
    (runCalls env calls m).factory.mCameraOrientation = m.factory.mCameraOrientation ∧
    (runCalls env calls m).factory.mCameraNum = m.factory.mCameraNum ∧
    (runCalls env calls m).factory.mCamera.length = m.factory.mCamera.length ∧
    (∀ (j : Nat) (h : CameraHardware), m.factory.mCamera[j]? = some (some h) →
      (runCalls env calls m).factory.mCamera[j]? = some (some h)) := by
  induction calls generalizing m with
  | nil => simp [runCalls]
  | cons c cs ih =>
    obtain ⟨a1, a2, a3, a4, a5, a6⟩ := Call.run_frame env c m
    obtain ⟨b1, b2, b3, b4, b5, b6⟩ := ih (c.run env m)
    have e : runCalls env (c :: cs) m = runCalls env cs (c.run env m) := by
      simp [runCalls]
    rw [e]
    refine ⟨b1.trans a1, b2.trans a2, b3.trans a3, b4.trans a4, b5.trans a5, ?_⟩
    intro j h hp
    exact b6 j h (a6 j h hp)

theorem runCalls_WF (env : Env) (calls : List Call) (m : Machine) (hwf : WF m.factory) :
    WF (runCalls env calls m).factory := by
  obtain ⟨a1, a2, a3, a4, a5, -⟩ := runCalls_frame env calls m
  unfold WF at *
  rw [a1, a2, a3, a4, a5]
  exact hwf

/-! ## The handlers: claims -/

/-- C1. An id outside `[0, getCameraNum())` makes both `cameraDeviceOpen` and
`getCameraInfo` return `-EINVAL` and leaves the machine as it was: the
registry is unchanged and the trace gains no call, so no handle is
constructed.  With an empty registry (`getCameraNum() = 0`) every id is such
an id. -/
theorem out_of_range_rejected (env : Env) (module : hw_module_t) (camera_id : Int)
    (m : Machine) (hid : camera_id < 0 ∨ camera_id ≥ getCameraNum m.factory) :
    cameraDeviceOpen env module camera_id m = (-EINVAL, m) ∧
    getCameraInfo env camera_id m = (-EINVAL, m) ∧
    -EINVAL = (-22 : Int) ∧
    (getCameraNum m.factory = 0 → ∀ id : Int,
      cameraDeviceOpen env module id m = (-EINVAL, m) ∧
      getCameraInfo env id m = (-EINVAL, m)) := by
  refine ⟨?_, ?_, rfl, ?_⟩
  · unfold cameraDeviceOpen
    rw [if_pos (Or.inr hid)]
  · unfold getCameraInfo
    rw [if_pos hid]
  · intro h0 id
    have hid2 : id < 0 ∨ id ≥ getCameraNum m.factory := by omega
    constructor
    · unfold cameraDeviceOpen
      rw [if_pos (Or.inr hid2)]
    · unfold getCameraInfo
      rw [if_pos hid2]

/-- C2. For a valid id `getCameraInfo` hands the formatter exactly the facing
and orientation stored in record `camera_id`, returns the formatter's status
(so not the `-EINVAL` of the bounds check), and leaves the registry unchanged;
after any sequence of `cameraDeviceOpen` and `getCameraInfo` calls on any ids
it still hands over the same two values. -/
theorem getCameraInfo_reports_record (env : Env) (camera_id : Int) (m : Machine)
    (hwf : WF m.factory) (hid : 0 ≤ camera_id ∧ camera_id < getCameraNum m.factory) :
    ∃ facing orientation : Int,
      m.factory.mCameraFacing[camera_id.toNat]? = some facing ∧
      m.factory.mCameraOrientation[camera_id.toNat]? = some orientation ∧
      ∀ calls : List Call,
        getCameraInfo env camera_id (runCalls env calls m) =
          (env.getCameraInfo facing orientation,
           { factory := (runCalls env calls m).factory,
             trace := (runCalls env calls m).trace ++
               [Event.getCameraInfo facing orientation] }) ∧
        (runCalls env calls m).factory.mCameraFacing = m.factory.mCameraFacing ∧
        (runCalls env calls m).factory.mCameraOrientation = m.factory.mCameraOrientation ∧
        (env.getCameraInfo facing orientation ≠ -EINVAL →
          (getCameraInfo env camera_id (runCalls env calls m)).1 ≠ -EINVAL) := by
  obtain ⟨-, -, hf, ho⟩ := valid_id_lt m.factory camera_id hwf hid
  refine ⟨m.factory.mCameraFacing[camera_id.toNat], m.factory.mCameraOrientation[camera_id.toNat],
    List.getElem?_eq_getElem hf, List.getElem?_eq_getElem ho, ?_⟩
  intro calls
  obtain ⟨-, a2, a3, a4, -, -⟩ := runCalls_frame env calls m
  have hid2 : 0 ≤ camera_id ∧ camera_id < getCameraNum (runCalls env calls m).factory := by
    unfold getCameraNum at *
    rw [a4]; exact hid
  have e := getCameraInfo_valid env camera_id (runCalls env calls m) hid2
  rw [a2, a3] at e
  simp only [List.getD_eq_getElem?_getD, List.getElem?_eq_getElem hf,
    List.getElem?_eq_getElem ho, Option.getD_some] at e
  refine ⟨e, a2, a3, ?_⟩
  intro hne
  rw [e]
  exact hne

/-- The state of slot `camera_id` of `mCamera` for a valid id. -/
theorem mCamera_slot (f : CameraFactory) (camera_id : Int) (hwf : WF f)
    (hid : 0 ≤ camera_id ∧ camera_id < getCameraNum f) :
    f.mCamera[camera_id.toNat]? = some none ∨
    ∃ h, f.mCamera[camera_id.toNat]? = some (some h) := by
  have hlt := (valid_id_lt f camera_id hwf hid).1
  rw [List.getElem?_eq_getElem hlt]
  cases f.mCamera[camera_id.toNat] with
  | none => exact Or.inl rfl
  | some h => exact Or.inr ⟨h, rfl⟩

/-- C3. Two `cameraDeviceOpen` calls in a row on a valid id construct the
handle at most once: the first call constructs one exactly when the slot was
NULL, the second call constructs none, the slot holds the same handle after
both calls and both calls connect through it.  A handle that is present stays
present, and the same, under any sequence of handler calls. -/
theorem open_twice_constructs_once (env : Env) (module1 module2 : hw_module_t)
    (camera_id : Int) (m : Machine) (hwf : WF m.factory)
    (hid : 0 ≤ camera_id ∧ camera_id < getCameraNum m.factory) :
    ∃ h : CameraHardware,
      (cameraDeviceOpen env module1 camera_id m).2.factory.mCamera[camera_id.toNat]?
        = some (some h) ∧
      (cameraDeviceOpen env module2 camera_id
        (cameraDeviceOpen env module1 camera_id m).2).2.factory.mCamera[camera_id.toNat]?
        = some (some h) ∧
      constructions (cameraDeviceOpen env module1 camera_id m).2.trace =
        constructions m.trace +
          (if m.factory.mCamera[camera_id.toNat]? = some none then 1 else 0) ∧
      (cameraDeviceOpen env module1 camera_id m).2.trace.getLast? =
        some (Event.connectCamera h) ∧
      (cameraDeviceOpen env module2 camera_id
        (cameraDeviceOpen env module1 camera_id m).2).2.trace =
        (cameraDeviceOpen env module1 camera_id m).2.trace ++ [Event.connectCamera h] ∧
      (cameraDeviceOpen env module2 camera_id
        (cameraDeviceOpen env module1 camera_id m).2).2.factory =
        (cameraDeviceOpen env module1 camera_id m).2.factory ∧
      ∀ (calls : List Call) (j : Nat) (h0 : CameraHardware),
        m.factory.mCamera[j]? = some (some h0) →
        (runCalls env calls m).factory.mCamera[j]? = some (some h0) := by
  have hlt := (valid_id_lt m.factory camera_id hwf hid).1
  have e1 := cameraDeviceOpen_valid env module1 camera_id m hwf hid
  -- the slot after the first call
  have key : ∃ h : CameraHardware,
      (ensureCamera module1 camera_id.toNat m).1 = h ∧
      (ensureCamera module1 camera_id.toNat m).2.factory.mCamera[camera_id.toNat]?
        = some (some h) ∧
      constructions (ensureCamera module1 camera_id.toNat m).2.trace =
        constructions m.trace +
          (if m.factory.mCamera[camera_id.toNat]? = some none then 1 else 0) := by
    rcases mCamera_slot m.factory camera_id hwf hid with hp | ⟨h0, hp⟩
    · rw [ensureCamera_absent module1 _ m hp]
      refine ⟨_, rfl, ?_, ?_⟩
      · simp [List.getElem?_set_self hlt]
      · simp [hp, constructions_append, constructions]
    · rw [ensureCamera_present module1 _ m h0 hp]
      refine ⟨h0, rfl, hp, ?_⟩
      simp [hp]
  obtain ⟨h, k1, k2, k3⟩ := key
  -- the machine after the first call
  have hm1 : (cameraDeviceOpen env module1 camera_id m).2 =
      { (ensureCamera module1 camera_id.toNat m).2 with
        trace := (ensureCamera module1 camera_id.toNat m).2.trace ++
          [Event.connectCamera h] } := by
    rw [e1, k1]
  obtain ⟨f1, f2, f3, f4, f5, -, -⟩ := ensureCamera_frame module1 camera_id.toNat m
  have hwf1 : WF (cameraDeviceOpen env module1 camera_id m).2.factory := by
    rw [hm1]
    unfold WF at *
    simp only [f1, f2, f3, f4, f5]
    exact hwf
  have hid1 : 0 ≤ camera_id ∧
      camera_id < getCameraNum (cameraDeviceOpen env module1 camera_id m).2.factory := by
    rw [hm1]
    unfold getCameraNum at *
    simp only [f4]
    exact hid
  have hslot1 : (cameraDeviceOpen env module1 camera_id m).2.factory.mCamera[camera_id.toNat]?
      = some (some h) := by
    rw [hm1]; exact k2
  have e2 := cameraDeviceOpen_valid env module2 camera_id _ hwf1 hid1
  rw [ensureCamera_present module2 _ _ h hslot1] at e2
  refine ⟨h, hslot1, ?_, ?_, ?_, ?_, ?_, ?_⟩
  · rw [e2]; exact hslot1
  · rw [hm1]
    simp only [constructions_append, constructions, k3]
    rfl
  · rw [hm1]
    simp
  · rw [e2]
  · rw [e2]
  · intro calls j h0 hp
    exact (runCalls_frame env calls m).2.2.2.2.2 j h0 hp

/-- C4. For a valid id `cameraDeviceOpen` works on record `camera_id`: a
missing handle is constructed from `module` and from `mCameraDevices[camera_id]`
and stored in slot `camera_id`, a present handle is used as it is, and the
value returned is the status of `connectCamera` on the handle of that slot,
whatever the driver answers. -/
theorem open_dispatches_to_record (env : Env) (module : hw_module_t) (camera_id : Int)
    (m : Machine) (hwf : WF m.factory)
    (hid : 0 ≤ camera_id ∧ camera_id < getCameraNum m.factory) :
    ∃ h : CameraHardware,
      (cameraDeviceOpen env module camera_id m).2.factory.mCamera[camera_id.toNat]?
        = some (some h) ∧
      (cameraDeviceOpen env module camera_id m).1 =
        env.connectCamera (cameraDeviceOpen env module camera_id m).2.trace.dropLast h ∧
      (cameraDeviceOpen env module camera_id m).2.trace.getLast? =
        some (Event.connectCamera h) ∧
      (m.factory.mCamera[camera_id.toNat]? = some none →
        m.factory.mCameraDevices[camera_id.toNat]? = some h.location ∧
        h.module = module ∧
        h.serial = constructions m.trace ∧
        (cameraDeviceOpen env module camera_id m).2.trace =
          m.trace ++ [Event.newCameraHardware module h.location, Event.connectCamera h]) ∧
      (∀ h0 : CameraHardware, m.factory.mCamera[camera_id.toNat]? = some (some h0) →
        h = h0 ∧
        (cameraDeviceOpen env module camera_id m).2.trace =
          m.trace ++ [Event.connectCamera h]) := by
  obtain ⟨hlt, hdev, -, -⟩ := valid_id_lt m.factory camera_id hwf hid
  have e1 := cameraDeviceOpen_valid env module camera_id m hwf hid
  rcases mCamera_slot m.factory camera_id hwf hid with hp | ⟨h1, hp⟩
  · rw [ensureCamera_absent module _ m hp] at e1
    rw [e1]
    refine ⟨{ serial := constructions m.trace, module := module,
              location := m.factory.mCameraDevices.getD camera_id.toNat [] }, ?_, ?_, ?_, ?_, ?_⟩
    · simp [List.getElem?_set_self hlt]
    · simp
    · simp
    · intro _
      refine ⟨?_, rfl, rfl, ?_⟩
      · simp [List.getElem?_eq_getElem hdev]
      · simp
    · intro h0 hp0
      rw [hp] at hp0
      cases hp0
  · rw [ensureCamera_present module _ m h1 hp] at e1
    rw [e1]
    refine ⟨h1, hp, ?_, ?_, ?_, ?_⟩
    · simp
    · simp
    · intro hp0
      rw [hp] at hp0
      cases hp0
    · intro h0 hp0
      rw [hp] at hp0
      cases hp0
      exact ⟨rfl, rfl⟩

/-! ## Lemmas on discovery -/

theorem fgetsAux_length (room : Nat) (s : List Char) :
    (fgetsAux room s).1.length + (fgetsAux room s).2.length = s.length := by
  induction room generalizing s with
  | zero => simp [fgetsAux]
  | succ n ih =>
    cases s with
    | nil => simp [fgetsAux]
    | cons c s =>
      unfold fgetsAux
      split
      · simp; omega
      · have := ih s
        simp only [List.cons, List.length_cons]
        omega

theorem fgetsAux_le (room : Nat) (s : List Char) : (fgetsAux room s).1.length ≤ room := by
  induction room generalizing s with
  | zero => simp [fgetsAux]
  | succ n ih =>
    cases s with
    | nil => simp [fgetsAux]
    | cons c s =>
      unfold fgetsAux
      split
      · simp
      · have := ih s
        simp only [List.cons, List.length_cons]
        omega

theorem fgetsAux_pos (room : Nat) (c : Char) (s : List Char) :
    0 < (fgetsAux (room + 1) (c :: s)).1.length := by
  unfold fgetsAux
  split <;> simp [List.cons]

/-- Each `fgets` call that returns a line takes at least one character and at
most 127. -/
theorem fgets_some (stream buf rest : List Char) (h : fgets 128 stream = some (buf, rest)) :
    rest.length < stream.length ∧ 0 < buf.length ∧ buf.length ≤ 127 := by
  cases stream with
  | nil => simp [fgets] at h
  | cons c s =>
    simp only [fgets, Option.some.injEq] at h
    have h1 := fgetsAux_length 127 (c :: s)
    have h2 := fgetsAux_pos 126 c s
    have h3 := fgetsAux_le 127 (c :: s)
    rw [h] at h1 h2 h3
    simp only at h1 h2 h3
    omega

theorem fgetsLinesAux_fuel (fuel : Nat) (stream : List Char) (h : stream.length ≤ fuel) :
    fgetsLinesAux fuel stream = fgetsLines stream := by
  unfold fgetsLines
  induction fuel using Nat.strong_induction_on generalizing stream with
  | _ fuel ih =>
    cases fuel with
    | zero =>
      have : stream = [] := List.length_eq_zero.mp (by omega)
      subst this
      rfl
    | succ n =>
      cases hs : stream.length with
      | zero =>
        have : stream = [] := List.length_eq_zero.mp hs
        subst this
        rfl
      | succ k =>
        unfold fgetsLinesAux
        cases hf : fgets 128 stream with
        | none => rfl
        | some p =>
          obtain ⟨buf, rest⟩ := p
          have hlt := (fgets_some stream buf rest hf).1
          simp only
          rw [ih n (by omega) rest (by omega), ih k (by omega) rest (by omega)]

/-- The loop over `fgets` reads the file to its end: the lines are the first
buffer followed by the lines of the stream that `fgets` left. -/
theorem fgetsLines_unfold (stream : List Char) :
    fgetsLines stream =
      match fgets 128 stream with
      | none => []
      | some (buf, rest) => buf :: fgetsLines rest := by
  cases hs : stream.length with
  | zero =>
    have : stream = [] := List.length_eq_zero.mp hs
    subst this
    rfl
  | succ k =>
    have e : fgetsLines stream = fgetsLinesAux (k + 1) stream := by
      unfold fgetsLines; rw [hs]
    rw [e]
    unfold fgetsLinesAux
    cases hf : fgets 128 stream with
    | none => rfl
    | some p =>
      obtain ⟨buf, rest⟩ := p
      have hlt := (fgets_some stream buf rest hf).1
      simp only
      rw [fgetsLinesAux_fuel k rest (by omega)]

theorem parseLoop_eq_foldl (env : Env) (fuel : Nat) (stream : List Char) (st : Args × Machine) :
    parseLoop env fuel stream st =
      (fgetsLinesAux fuel stream).foldl (fun acc buf => parseConfigLine env buf acc) st := by
  induction fuel generalizing stream st with
  | zero => rfl
  | succ n ih =>
    unfold parseLoop fgetsLinesAux
    cases hf : fgets 128 stream with
    | none => rfl
    | some p =>
      obtain ⟨buf, rest⟩ := p
      simp only [List.foldl_cons]
      exact ih rest _

/-- The configuration-file branch of `parseConfig` is the loop body applied to
the lines of the file, in order. -/
theorem parseConfig_some (env : Env) (stream : List Char) (uninit : Args) (m : Machine) :
    parseConfig env (some stream) uninit m =
      ((fgetsLines stream).foldl (fun acc buf => parseConfigLine env buf acc) (uninit, m)).2 := by
  unfold parseConfig fgetsLines
  simp only
  rw [parseLoop_eq_foldl]

/-- The loop `while (fgets(...) != NULL)` stops only at the end of the file:
the fuel of `parseConfig` is never used up. -/
theorem parseLoop_unfold (env : Env) (stream : List Char) (st : Args × Machine) :
    parseLoop env stream.length stream st =
      match fgets 128 stream with
      | none => st
      | some (buf, rest) => parseLoop env rest.length rest (parseConfigLine env buf st) := by
  rw [parseLoop_eq_foldl]
  have e := fgetsLines_unfold stream
  unfold fgetsLines at e
  rw [e]
  cases hf : fgets 128 stream with
  | none => rfl
  | some p =>
    obtain ⟨buf, rest⟩ := p
    simp only [List.foldl_cons]
    rw [parseLoop_eq_foldl]

theorem fallbackBody_advance (env : Env) (st : Fallback × Machine) :
    (fallbackBody env st).1.node10 = st.1.node10 + 1 ∧
    (fallbackBody env st).1.prop11 = st.1.prop11 + 1 := by
  unfold fallbackBody
  simp only
  split
  · split <;> simp
  · simp

/-- The fallback loop stops only when its condition fails: the fuel of
`fallbackLoop` is never used up. -/
theorem fallbackLoop_unfold (env : Env) (st : Fallback × Machine) :
    fallbackLoop env st =
      if fallbackCond st then fallbackLoop env (fallbackBody env st) else st := by
  unfold fallbackLoop
  by_cases h : st.1.node10 ≤ '9'.toNat
  · have e : '9'.toNat + 1 - st.1.node10 = ('9'.toNat - st.1.node10) + 1 := by omega
    rw [e]
    conv => lhs; unfold fallbackLoopAux
    rw [(fallbackBody_advance env st).1]
    have e2 : '9'.toNat + 1 - (st.1.node10 + 1) = '9'.toNat - st.1.node10 := by omega
    rw [e2]
  · have e : '9'.toNat + 1 - st.1.node10 = 0 := by omega
    rw [e]
    have hc : fallbackCond st = false := by
      unfold fallbackCond
      rw [decide_eq_false h]
      rfl
    rw [hc]
    rfl


theorem probeOk_false_iff (env : Env) (location : CStr) :
    probeOk env location = false ↔ (env.v4l2Open location ≠ 0 ∨ env.v4l2GetFps location = 0) := by
  unfold probeOk
  by_cases h1 : env.v4l2Open location = 0 <;> by_cases h2 : env.v4l2GetFps location = 0 <;>
    simp [h1, h2]

theorem newCameraConfig_fail (env : Env) (facing : Int) (location : CStr) (orientation : Int)
    (m : Machine) (h : probeOk env location = false) :
    (newCameraConfig env facing location orientation m).factory = m.factory := by
  rw [probeOk_false_iff] at h
  unfold newCameraConfig
  by_cases h1 : env.v4l2Open location = 0
  · have h2 : env.v4l2GetFps location = 0 := by
      rcases h with h | h
      · exact absurd h1 h
      · exact h
    simp [h1, h2]
  · simp [h1]

theorem newCameraConfig_ok (env : Env) (facing : Int) (location : CStr) (orientation : Int)
    (m : Machine) (h : probeOk env location = true) :
    (newCameraConfig env facing location orientation m).factory =
      { mCamera := m.factory.mCamera ++ [none],
        mCameraDevices := m.factory.mCameraDevices ++ [location],
        mCameraFacing := m.factory.mCameraFacing ++ [facing],
        mCameraOrientation := m.factory.mCameraOrientation ++ [orientation],
        mCameraNum := m.factory.mCameraNum + 1 } := by
  unfold probeOk at h
  simp only [Bool.and_eq_true, beq_iff_eq, bne_iff_ne, ne_eq] at h
  unfold newCameraConfig
  simp [h.1, h.2]

/-- `newCameraConfig` adds one record or none. -/
theorem newCameraConfig_count (env : Env) (facing : Int) (location : CStr) (orientation : Int)
    (m : Machine) :
    (newCameraConfig env facing location orientation m).factory.mCameraNum =
      m.factory.mCameraNum + (if probeOk env location then 1 else 0) := by
  cases h : probeOk env location with
  | false => rw [newCameraConfig_fail env _ _ _ _ h]; simp
  | true => rw [newCameraConfig_ok env _ _ _ _ h]; simp

theorem fallbackBody_count (env : Env) (st : Fallback × Machine) :
    st.2.factory.mCameraNum ≤ (fallbackBody env st).2.factory.mCameraNum ∧
    (fallbackBody env st).2.factory.mCameraNum ≤ st.2.factory.mCameraNum + 1 := by
  unfold fallbackBody
  simp only
  split
  · split <;> (rw [newCameraConfig_count]; simp only; split <;> omega)
  · simp

theorem fallbackLoopAux_count (env : Env) (fuel : Nat) (st : Fallback × Machine)
    (h : st.2.factory.mCameraNum ≤ 3) :
    (fallbackLoopAux env fuel st).2.factory.mCameraNum ≤ 3 := by
  induction fuel generalizing st with
  | zero => exact h
  | succ n ih =>
    unfold fallbackLoopAux
    split
    · rename_i hc
      apply ih
      have hb := (fallbackBody_count env st).2
      unfold fallbackCond at hc
      simp only [Bool.and_eq_true, decide_eq_true_eq] at hc
      omega
    · exact h

/-! ## Lemmas on scanning -/

theorem splitOnP_isspace (s : List Char) :
    s.splitOnP isspace =
      s.takeWhile (fun x => !isspace x) ::
        (match s.dropWhile (fun x => !isspace x) with
         | [] => []
         | _ :: r => r.splitOnP isspace) := by
  induction s with
  | nil => rfl
  | cons c s ih =>
    rw [List.splitOnP_cons]
    by_cases hc : isspace c = true
    · simp [hc]
    · simp only [hc]
      rw [ih]
      simp [List.takeWhile_cons, List.dropWhile_cons, hc]

theorem specTokens_nil : specTokens [] = [] := by decide

theorem specTokens_cons_space (c : Char) (s : List Char) (hc : isspace c = true) :
    specTokens (c :: s) = specTokens s := by
  unfold specTokens
  rw [List.splitOnP_cons]
  simp [hc]

theorem dropWhile_head (p : Char → Bool) (s : List Char) (d : Char) (r : List Char)
    (h : s.dropWhile p = d :: r) : p d = false := by
  induction s with
  | nil => simp at h
  | cons c s ih =>
    rw [List.dropWhile_cons] at h
    split at h
    · exact ih h
    · rename_i hc
      simp only [List.cons.injEq] at h
      rw [← h.1]
      simpa using hc

theorem specTokens_cons_word (c : Char) (s : List Char) (hc : isspace c = false) :
    specTokens (c :: s) =
      (c :: s).takeWhile (fun x => !isspace x) ::
        specTokens ((c :: s).dropWhile (fun x => !isspace x)) := by
  have e : specTokens (c :: s) = ((c :: s).splitOnP isspace).filter (fun t => !t.isEmpty) := rfl
  rw [e, splitOnP_isspace]
  have hne : ((c :: s).takeWhile (fun x => !isspace x)).isEmpty = false := by
    simp [List.takeWhile_cons, hc]
  rw [List.filter_cons]
  simp only [hne, Bool.not_false, if_true]
  congr 1
  cases hd : (c :: s).dropWhile (fun x => !isspace x) with
  | nil => rfl
  | cons d r =>
    have hsp : isspace d = true := by
      have := dropWhile_head _ _ d r hd
      simpa using this
    simp only
    rw [specTokens_cons_space d r hsp]
    rfl

theorem specTokens_skipSpace (s : List Char) : specTokens (skipSpace s) = specTokens s := by
  induction s with
  | nil => rfl
  | cons c s ih =>
    unfold skipSpace at *
    rw [List.dropWhile_cons]
    split
    · rename_i hc
      rw [ih, specTokens_cons_space c s hc]
    · rfl

/-- The tokens of a line are what successive `%s` conversions read. -/
theorem specTokens_scanS (s : List Char) :
    specTokens s =
      match scanS s with
      | none => []
      | some (t, r) => t :: specTokens r := by
  rw [← specTokens_skipSpace]
  unfold scanS
  cases hs : skipSpace s with
  | nil => rfl
  | cons c t =>
    have hc : isspace c = false := dropWhile_head isspace s c t hs
    simp only
    exact specTokens_cons_word c t hc

theorem skipSpace_idem (s : List Char) : skipSpace (skipSpace s) = skipSpace s := by
  unfold skipSpace
  cases hs : s.dropWhile isspace with
  | nil => rfl
  | cons c t =>
    have hc : isspace c = false := dropWhile_head isspace s c t hs
    rw [List.dropWhile_cons]
    simp [hc]

theorem scanS_skipSpace (s : List Char) : scanS (skipSpace s) = scanS s := by
  unfold scanS
  rw [skipSpace_idem]

theorem takeWhile_append_all (p : Char → Bool) (a b : List Char) (ha : a.all p = true) :
    (a ++ b).takeWhile p = a ++ b.takeWhile p := by
  induction a with
  | nil => rfl
  | cons c a ih =>
    simp only [List.all_cons, Bool.and_eq_true] at ha
    simp [List.takeWhile_cons, ha.1, ih ha.2]

theorem dropWhile_append_all (p : Char → Bool) (a b : List Char) (ha : a.all p = true) :
    (a ++ b).dropWhile p = b.dropWhile p := by
  induction a with
  | nil => rfl
  | cons c a ih =>
    simp only [List.all_cons, Bool.and_eq_true] at ha
    simp [List.dropWhile_cons, ha.1, ih ha.2]

theorem takeWhile_all (p : Char → Bool) (s : List Char) : (s.takeWhile p).all p = true := by
  induction s with
  | nil => rfl
  | cons c s ih =>
    rw [List.takeWhile_cons]
    split
    · rename_i hc
      simp [hc, ih]
    · rfl

/-- The digits that `%d` takes from a run of digits followed by something that
does not start with a digit. -/
theorem takeWhile_isdigit_token (ds r : List Char) (hds : ds.all isdigit = true)
    (hr : r = [] ∨ ∃ d t, r = d :: t ∧ isspace d = true) :
    (ds ++ r).takeWhile isdigit = ds := by
  rw [takeWhile_append_all isdigit ds r hds]
  rcases hr with hr | ⟨d, t, hr, hd⟩
  · subst hr; simp
  · subst hr
    have : isdigit d = false := by
      unfold isspace at hd
      simp only [Bool.or_eq_true, beq_iff_eq] at hd
      rcases hd with ((((h | h) | h) | h) | h) | h <;> (subst h; decide)
    simp [List.takeWhile_cons, this]

theorem isdigit_not_sign (c : Char) (h : isdigit c = true) : c ≠ '-' ∧ c ≠ '+' := by
  constructor <;> (intro hc; subst hc; revert h; decide)

theorem scanSign_minus (t : List Char) : scanSign ('-' :: t) = (true, t) := rfl

theorem scanSign_plus (t : List Char) : scanSign ('+' :: t) = (false, t) := rfl

theorem scanSign_other (c : Char) (t : List Char) (hm : c ≠ '-') (hp : c ≠ '+') :
    scanSign (c :: t) = (false, c :: t) := by
  unfold scanSign
  split
  · rename_i heq; simp only [List.cons.injEq] at heq; exact absurd heq.1 hm
  · rename_i heq; simp only [List.cons.injEq] at heq; exact absurd heq.1 hp
  · rfl

theorem specInteger_other (c : Char) (t : List Char) (hm : c ≠ '-') (hp : c ≠ '+') :
    specInteger (c :: t) =
      if (c :: t) ≠ [] ∧ (c :: t).all isdigit then some (digitsValue (c :: t) : Int)
      else none := by
  unfold specInteger
  split
  · rename_i heq; simp only [List.cons.injEq] at heq; exact absurd heq.1 hm
  · rename_i heq; simp only [List.cons.injEq] at heq; exact absurd heq.1 hp
  · rfl

/-- On a token that writes an integer, followed by white space or by the end
of the string, `%d` reads that integer. -/
theorem scanDigits_token (token r : List Char) (v : Int) (hv : specInteger token = some v)
    (hne : ∀ c t, token = c :: t → isspace c = false)
    (hr : r = [] ∨ ∃ d t, r = d :: t ∧ isspace d = true) :
    ∃ rest, scanDigits (token ++ r) = some (v, rest) := by
  have hskip : skipSpace (token ++ r) = token ++ r := by
    cases token with
    | nil => simp [specInteger] at hv
    | cons c t =>
      have := hne c t rfl
      simp [skipSpace, List.dropWhile_cons, this]
  unfold scanDigits
  rw [hskip]
  cases token with
  | nil => simp [specInteger] at hv
  | cons c t =>
    by_cases hm : c = '-'
    · subst hm
      simp only [specInteger] at hv
      split at hv
      · rename_i hd
        cases hv
        have ht := takeWhile_isdigit_token t r hd.2 hr
        cases t with
        | nil => exact absurd rfl hd.1
        | cons d ds =>
          simp only [List.cons_append, scanSign_minus] at ht ⊢
          rw [ht]
          exact ⟨_, rfl⟩
      · cases hv
    · by_cases hp : c = '+'
      · subst hp
        simp only [specInteger] at hv
        split at hv
        · rename_i hd
          cases hv
          have ht := takeWhile_isdigit_token t r hd.2 hr
          cases t with
          | nil => exact absurd rfl hd.1
          | cons d ds =>
            simp only [List.cons_append, scanSign_plus] at ht ⊢
            rw [ht]
            exact ⟨_, rfl⟩
        · cases hv
      · rw [specInteger_other c t hm hp] at hv
        split at hv
        · rename_i hd
          cases hv
          have ht := takeWhile_isdigit_token (c :: t) r hd.2 hr
          simp only [List.cons_append, scanSign_other c _ hm hp] at ht ⊢
          rw [ht]
          exact ⟨_, rfl⟩
        · cases hv

/-- A number in the range of `int` is stored as it is. -/
theorem toInt32_clamp64 (v : Int) (h : INT_MIN ≤ v ∧ v ≤ INT_MAX) : toInt32 (clamp64 v) = v := by
  unfold INT_MIN INT_MAX at h
  unfold toInt32 clamp64
  split
  · omega
  · split <;> omega

/-- What an `int` holds is in the range of `int`. -/
theorem toInt32_range (n : Int) : INT_MIN ≤ toInt32 n ∧ toInt32 n ≤ INT_MAX := by
  unfold INT_MIN INT_MAX toInt32
  omega

/-- On a token that writes an integer, followed by white space or by the end
of the string, `%d` stores that integer as an `int` holds it. -/
theorem scanD_token (token r : List Char) (v : Int) (hv : specInteger token = some v)
    (hne : ∀ c t, token = c :: t → isspace c = false)
    (hr : r = [] ∨ ∃ d t, r = d :: t ∧ isspace d = true) :
    ∃ rest, scanD (token ++ r) = some (toInt32 (clamp64 v), rest) := by
  obtain ⟨rest, h⟩ := scanDigits_token token r v hv hne hr
  refine ⟨rest, ?_⟩
  unfold scanD
  rw [h]

/-- The first variable of `sscanf(line, "%s %s %d", ...)` receives the first
token when there is one. -/
theorem sscanf_arg1 (line : CStr) (a : Args) (t1 r1 : CStr) (h : scanS line = some (t1, r1)) :
    (sscanf_s_s_d line a).2.arg1 = t1 := by
  unfold sscanf_s_s_d
  rw [h]
  simp only
  split
  · rfl
  · split <;> rfl

/-- A line of three tokens, the third an integer, fills the three variables. -/
theorem sscanf_entry (line : CStr) (a : Args) (kw loc ori : List Char) (v : Int)
    (ht : specTokens line = [kw, loc, ori]) (hv : specInteger ori = some v) :
    sscanf_s_s_d line a = (3, { arg1 := kw, arg2 := loc, arg3 := toInt32 (clamp64 v) }) := by
  have h1 := specTokens_scanS line
  rw [ht] at h1
  cases hs1 : scanS line with
  | none => rw [hs1] at h1; cases h1
  | some p1 =>
    obtain ⟨t1, r1⟩ := p1
    rw [hs1] at h1
    simp only [List.cons.injEq] at h1
    obtain ⟨hkw, hr1⟩ := h1
    have h2 := specTokens_scanS r1
    rw [← hr1] at h2
    cases hs2 : scanS r1 with
    | none => rw [hs2] at h2; cases h2
    | some p2 =>
      obtain ⟨t2, r2⟩ := p2
      rw [hs2] at h2
      simp only [List.cons.injEq] at h2
      obtain ⟨hloc, hr2⟩ := h2
      have h3 := specTokens_scanS r2
      rw [← hr2] at h3
      cases hs3 : scanS r2 with
      | none => rw [hs3] at h3; cases h3
      | some p3 =>
        obtain ⟨t3, r3⟩ := p3
        rw [hs3] at h3
        simp only [List.cons.injEq] at h3
        obtain ⟨hori, -⟩ := h3
        -- the third token and what follows it
        unfold scanS at hs3
        cases hsk : skipSpace r2 with
        | nil => rw [hsk] at hs3; cases hs3
        | cons c t =>
          rw [hsk] at hs3
          simp only [Option.some.injEq, Prod.mk.injEq] at hs3
          obtain ⟨ht3, hr3⟩ := hs3
          have hc : isspace c = false := dropWhile_head isspace r2 c t hsk
          have hsplit : skipSpace r2 = t3 ++ r3 := by
            rw [hsk, ← ht3, ← hr3]
            exact (List.takeWhile_append_dropWhile _ _).symm
          have hne : ∀ c0 t0, ori = c0 :: t0 → isspace c0 = false := by
            intro c0 t0 h0
            rw [hori, ← ht3, List.takeWhile_cons] at h0
            simp only [hc, Bool.not_false, if_true, List.cons.injEq] at h0
            rw [← h0.1]; exact hc
          have hrest : r3 = [] ∨ ∃ d t0, r3 = d :: t0 ∧ isspace d = true := by
            cases hr3' : r3 with
            | nil => exact Or.inl rfl
            | cons d t0 =>
              refine Or.inr ⟨d, t0, rfl, ?_⟩
              rw [← hr3] at hr3'
              have := dropWhile_head _ _ d t0 hr3'
              simpa using this
          obtain ⟨rest, hd⟩ := scanD_token ori r3 v hv hne hrest
          unfold sscanf_s_s_d
          rw [hs1]
          simp only
          rw [scanS_skipSpace, hs2]
          simp only
          rw [hsplit, ← hori, hd, ← hkw, ← hloc]

/-- What `%d` stores is an `int`. -/
theorem scanD_range (s : CStr) (v : Int) (rest : CStr) (h : scanD s = some (v, rest)) :
    INT_MIN ≤ v ∧ v ≤ INT_MAX := by
  unfold scanD at h
  split at h
  · cases h
  · simp only [Option.some.injEq, Prod.mk.injEq] at h
    rw [← h.1]
    exact toInt32_range _

/-- When `sscanf` stores three items, `arg3` holds an `int`. -/
theorem sscanf_three_range (line : CStr) (a b : Args) (h : sscanf_s_s_d line a = (3, b)) :
    INT_MIN ≤ b.arg3 ∧ b.arg3 ≤ INT_MAX := by
  unfold sscanf_s_s_d at h
  split at h
  · simp only [Prod.mk.injEq] at h
    exact absurd h.1 (by decide)
  · split at h
    · simp only [Prod.mk.injEq] at h
      exact absurd h.1 (by decide)
    · split at h
      · simp only [Prod.mk.injEq] at h
        exact absurd h.1 (by decide)
      · rename_i v r hd
        simp only [Prod.mk.injEq, true_and] at h
        rw [← h]
        exact scanD_range _ v r hd

/-- When `sscanf` stores three items, it overwrites all three variables: the
result does not depend on what they held. -/
theorem sscanf_three (line : CStr) (a0 a a' : Args) (h : (sscanf_s_s_d line a0).1 = 3) :
    sscanf_s_s_d line a = sscanf_s_s_d line a' := by
  unfold sscanf_s_s_d at h ⊢
  cases h1 : scanS line with
  | none =>
    rw [h1] at h
    simp only at h
    exact absurd h (by decide)
  | some p1 =>
    obtain ⟨t1, r1⟩ := p1
    rw [h1] at h
    simp only at h ⊢
    cases h2 : scanS (skipSpace r1) with
    | none =>
      rw [h2] at h
      simp only at h
      exact absurd h (by decide)
    | some p2 =>
      obtain ⟨t2, r2⟩ := p2
      rw [h2] at h
      simp only at h ⊢
      cases h3 : scanD (skipSpace r2) with
      | none =>
        rw [h3] at h
        simp only at h
        exact absurd h (by decide)
      | some p3 => rfl

theorem getD_takeWhile_length (p : Char → Bool) (s : List Char) (d : Char) :
    s.getD (s.takeWhile p).length d = (s.dropWhile p).headD d := by
  induction s with
  | nil => rfl
  | cons c s ih =>
    rw [List.takeWhile_cons, List.dropWhile_cons]
    split
    · simpa using ih
    · simp

theorem all_imp (p q : Char → Bool) (s : List Char) (h : ∀ c, p c = true → q c = true)
    (hs : s.all p = true) : s.all q = true := by
  rw [List.all_eq_true] at *
  intro c hc
  exact h c (hs c hc)

theorem isspace_of_accept (c : Char)
    (h : [' ', '\t', '\n', '\x0b'].contains c = true) : isspace c = true := by
  simp only [List.contains_cons, List.contains_nil, Bool.or_false, Bool.or_eq_true,
    beq_iff_eq] at h
  rcases h with h | h | h | h <;> (subst h; decide)

theorem not_nul_of_isspace (c : Char) (h : isspace c = true) : (c != '\x00') = true := by
  unfold isspace at h
  simp only [Bool.or_eq_true, beq_iff_eq] at h
  rcases h with ((((h | h) | h) | h) | h) | h <;> (subst h; decide)

/-- A line that the loop skips has `#` as its first non-whitespace character. -/
theorem commentLine_skipSpace (line : CStr) (h : commentLine line = true) :
    ∃ rest, skipSpace line = '#' :: rest := by
  unfold commentLine strspn at h
  rw [getD_takeWhile_length] at h
  simp only [beq_iff_eq] at h
  cases hd : line.dropWhile (fun c => [' ', '\t', '\n', '\x0b'].contains c) with
  | nil => rw [hd] at h; exact absurd h (by decide)
  | cons c rest =>
    rw [hd] at h
    simp only [List.headD_cons] at h
    subst h
    refine ⟨rest, ?_⟩
    have e : line = line.takeWhile (fun c => [' ', '\t', '\n', '\x0b'].contains c) ++ '#' :: rest := by
      rw [← hd]; exact (List.takeWhile_append_dropWhile _ _).symm
    have hall := all_imp _ isspace _ isspace_of_accept (takeWhile_all
      (fun c => [' ', '\t', '\n', '\x0b'].contains c) line)
    unfold skipSpace
    rw [e, dropWhile_append_all isspace _ _ hall]
    rfl

/-- In a line whose first non-whitespace character is `#`, the C string starts,
after white space, with that `#`. -/
theorem specComment_skipSpace (buf : List Char) (h : specComment buf = true) :
    ∃ rest, skipSpace (cstr buf) = '#' :: rest := by
  unfold specComment at h
  cases hd : buf.dropWhile isspace with
  | nil => rw [hd] at h; cases h
  | cons c rest =>
    rw [hd] at h
    simp only [List.head?_cons, beq_iff_eq, Option.some.injEq] at h
    subst h
    have e : buf = buf.takeWhile isspace ++ '#' :: rest := by
      rw [← hd]; exact (List.takeWhile_append_dropWhile _ _).symm
    have hall : (buf.takeWhile isspace).all isspace = true := takeWhile_all isspace buf
    have hall2 := all_imp isspace (fun c => c != '\x00') _ not_nul_of_isspace hall
    refine ⟨cstr rest, ?_⟩
    unfold cstr skipSpace
    rw [e, takeWhile_append_all _ _ _ hall2, dropWhile_append_all isspace _ _ hall]
    rfl

/-- When the string starts, after white space, with `#`, so does `arg1`. -/
theorem sscanf_arg1_comment (line : CStr) (a : Args) (rest : CStr)
    (h : skipSpace line = '#' :: rest) :
    ∃ t, (sscanf_s_s_d line a).2.arg1 = '#' :: t := by
  have hs : scanS line = some ('#' :: rest.takeWhile (fun x => !isspace x),
      ('#' :: rest).dropWhile (fun x => !isspace x)) := by
    unfold scanS
    rw [h]
    rfl
  exact ⟨_, sscanf_arg1 line a _ _ hs⟩

/-- The loop body when `arg1` is neither keyword: the machine is untouched. -/
theorem parseConfigLine_other (env : Env) (buf : List Char) (st : Args × Machine)
    (h1 : (sscanf_s_s_d (cstr buf) st.1).2.arg1 ≠ "front".toList)
    (h2 : (sscanf_s_s_d (cstr buf) st.1).2.arg1 ≠ "back".toList) :
    (parseConfigLine env buf st).2 = st.2 := by
  unfold parseConfigLine
  simp only
  split
  · rfl
  · rfl

theorem parseConfigLine_comment (env : Env) (buf : List Char) (st : Args × Machine)
    (h : specComment buf = true) : (parseConfigLine env buf st).2 = st.2 := by
  obtain ⟨rest, hr⟩ := specComment_skipSpace buf h
  obtain ⟨t, ht⟩ := sscanf_arg1_comment (cstr buf) st.1 rest hr
  apply parseConfigLine_other
  · rw [ht]
    intro h0
    have h1 : some '#' = ("front".toList).head? := congrArg List.head? h0
    exact absurd h1 (by decide)
  · rw [ht]
    intro h0
    have h1 : some '#' = ("back".toList).head? := congrArg List.head? h0
    exact absurd h1 (by decide)

theorem normalizeArg3_eq (v : Int) : normalizeArg3 v = specOrientation v := by
  unfold normalizeArg3 specOrientation
  split <;> split <;> omega

theorem specFacing_some (kw : List Char) (f : Int) (h : specFacing kw = some f) :
    (kw = "front".toList ∧ f = CAMERA_FACING_FRONT) ∨
    (kw ≠ "front".toList ∧ kw = "back".toList ∧ f = CAMERA_FACING_BACK) := by
  unfold specFacing at h
  split at h
  · rename_i hk
    simp only [Option.some.injEq] at h
    exact Or.inl ⟨hk, h.symm⟩
  · rename_i hk
    split at h
    · rename_i hk2
      simp only [Option.some.injEq] at h
      exact Or.inr ⟨hk, hk2, h.symm⟩
    · cases h

/-- What an entry line is made of. -/
theorem specEntry_some (buf : List Char) (e : Entry) (h : specEntry buf = some e) :
    ∃ kw ori v, specTokens buf = [kw, e.location, ori] ∧
      specFacing kw = some e.facing ∧ specInteger ori = some v ∧
      e.orientation = specOrientation v := by
  unfold specEntry at h
  split at h
  · rename_i kw loc ori htok
    split at h
    · rename_i f v hf hv
      simp only [Option.some.injEq] at h
      subst h
      exact ⟨kw, ori, v, htok, hf, hv, rfl⟩
    · cases h
  · cases h

/-- A comment line declares no camera: its first token starts with `#`. -/
theorem specEntry_comment (buf : List Char) (h : specComment buf = true) :
    specEntry buf = none := by
  unfold specComment at h
  cases hd : buf.dropWhile isspace with
  | nil => rw [hd] at h; cases h
  | cons c rest =>
    rw [hd] at h
    simp only [List.head?_cons, beq_iff_eq, Option.some.injEq] at h
    subst h
    have hsk : skipSpace buf = '#' :: rest := hd
    have htok : specTokens buf =
        ('#' :: rest).takeWhile (fun x => !isspace x) ::
          specTokens (('#' :: rest).dropWhile (fun x => !isspace x)) := by
      rw [← specTokens_skipSpace, hsk]
      exact specTokens_cons_word '#' rest (by decide)
    have hkw : ('#' :: rest).takeWhile (fun x => !isspace x) =
        '#' :: rest.takeWhile (fun x => !isspace x) := rfl
    rw [hkw] at htok
    unfold specEntry
    rw [htok]
    split
    · rename_i kw loc ori heq
      simp only [List.cons.injEq] at heq
      have hk : specFacing kw = none := by
        rw [← heq.1]
        unfold specFacing
        rw [if_neg, if_neg]
        · intro h0
          have h1 : some '#' = ("back".toList).head? := congrArg List.head? h0
          exact absurd h1 (by decide)
        · intro h0
          have h1 : some '#' = ("front".toList).head? := congrArg List.head? h0
          exact absurd h1 (by decide)
      rw [hk]
    · rfl

/-- A buffer without a NUL character holds itself as its string. -/
theorem cstr_noNul (buf : List Char) (h : noNul buf = true) : cstr buf = buf := by
  unfold noNul at h
  unfold cstr
  induction buf with
  | nil => rfl
  | cons c t ih =>
    simp only [List.all_cons, Bool.and_eq_true] at h
    rw [List.takeWhile_cons, h.1]
    simp only [if_true, List.cons.injEq, true_and]
    exact ih h.2

/-- The loop body on an entry line without NUL whose orientation fits an
`int`: one call of `newCameraConfig` with what the line declares. -/
theorem parseConfigLine_entry (env : Env) (buf : List Char) (st : Args × Machine) (e : Entry)
    (hnul : noNul buf = true) (hfit : orientationFitsInt buf = true)
    (h : specEntry buf = some e) :
    (parseConfigLine env buf st).2 =
      newCameraConfig env e.facing e.location e.orientation st.2 := by
  obtain ⟨kw, ori, v, htok, hf, hv, ho⟩ := specEntry_some buf e h
  have hrange : INT_MIN ≤ v ∧ v ≤ INT_MAX := by
    unfold orientationFitsInt at hfit
    rw [htok] at hfit
    simp only [hv, decide_eq_true_eq] at hfit
    exact hfit
  have hscan := sscanf_entry buf st.1 kw e.location ori v htok hv
  rw [toInt32_clamp64 v hrange] at hscan
  have hkw := specFacing_some kw e.facing hf
  have hnc : commentLine buf = false := by
    cases hc : commentLine buf with
    | false => rfl
    | true =>
      obtain ⟨rest, hr⟩ := commentLine_skipSpace buf hc
      obtain ⟨t, ht⟩ := sscanf_arg1_comment buf st.1 rest hr
      rw [hscan] at ht
      simp only at ht
      exfalso
      rcases hkw with ⟨hk, -⟩ | ⟨-, hk, -⟩
      · rw [hk] at ht
        have h1 : ("front".toList).head? = some '#' := congrArg List.head? ht
        exact absurd h1 (by decide)
      · rw [hk] at ht
        have h1 : ("back".toList).head? = some '#' := congrArg List.head? ht
        exact absurd h1 (by decide)
  unfold parseConfigLine
  simp only [cstr_noNul buf hnul, hnc, hscan, normalizeArg3_eq, ← ho]
  rcases hkw with ⟨hk, hfr⟩ | ⟨hk1, hk2, hbk⟩
  · simp [hk, hfr]
  · simp [hk1, hk2, hbk]

/-- The registry after the loop has run over lines that are comments or
entries without NUL whose orientation fits an `int`. -/
theorem foldl_parseConfigLine (env : Env) (lines : List (List Char)) (st : Args × Machine)
    (h : ∀ buf ∈ lines, specComment buf = true ∨
      (noNul buf = true ∧ orientationFitsInt buf = true ∧ (specEntry buf).isSome = true)) :
    (lines.foldl (fun acc buf => parseConfigLine env buf acc) st).2.factory =
      { mCamera := st.2.factory.mCamera ++
          (((lines.filterMap specEntry).filter (fun e => probeOk env e.location)).map
            (fun _ => none)),
        mCameraDevices := st.2.factory.mCameraDevices ++
          (((lines.filterMap specEntry).filter (fun e => probeOk env e.location)).map
            (fun e => e.location)),
        mCameraFacing := st.2.factory.mCameraFacing ++
          (((lines.filterMap specEntry).filter (fun e => probeOk env e.location)).map
            (fun e => e.facing)),
        mCameraOrientation := st.2.factory.mCameraOrientation ++
          (((lines.filterMap specEntry).filter (fun e => probeOk env e.location)).map
            (fun e => e.orientation)),
        mCameraNum := st.2.factory.mCameraNum +
          ((lines.filterMap specEntry).filter (fun e => probeOk env e.location)).length } := by
  induction lines generalizing st with
  | nil => simp
  | cons buf lines ih =>
    have hrest : ∀ b ∈ lines, specComment b = true ∨
        (noNul b = true ∧ orientationFitsInt b = true ∧ (specEntry b).isSome = true) :=
      fun b hb => h b (List.mem_cons_of_mem _ hb)
    rw [List.foldl_cons, ih _ hrest]
    rcases h buf (List.mem_cons_self _ _) with hc | ⟨hnul, hfit, hsome⟩
    · have he := specEntry_comment buf hc
      rw [parseConfigLine_comment env buf st hc]
      simp [List.filterMap_cons, he]
    · obtain ⟨e, he⟩ := Option.isSome_iff_exists.mp hsome
      rw [parseConfigLine_entry env buf st e hnul hfit he]
      cases hp : probeOk env e.location with
      | false =>
        rw [newCameraConfig_fail env _ _ _ _ hp]
        simp [List.filterMap_cons, he, List.filter_cons, hp]
      | true =>
        rw [newCameraConfig_ok env _ _ _ _ hp]
        simp [List.filterMap_cons, he, List.filter_cons, hp]
        omega

/-- The registry that the configuration-file branch builds when every buffer
that `fgets` returns is a comment or an entry without NUL whose orientation
fits an `int`. -/
theorem parseConfig_entries (env : Env) (uninit : Args) (content : List Char)
    (h : ∀ buf ∈ fgetsLines content, specComment buf = true ∨
      (noNul buf = true ∧ orientationFitsInt buf = true ∧ (specEntry buf).isSome = true)) :
    (parseConfig env (some content) uninit Machine.init).factory =
      specRegistry (((fgetsLines content).filterMap specEntry).filter
        (fun e => probeOk env e.location)) := by
  rw [parseConfig_some, foldl_parseConfigLine env _ _ h]
  simp [specRegistry, Machine.init, CameraFactory.init]

theorem newCameraConfig_WF (env : Env) (facing : Int) (location : CStr) (orientation : Int)
    (m : Machine) (h : WF m.factory) :
    WF (newCameraConfig env facing location orientation m).factory := by
  cases hp : probeOk env location with
  | false => rw [newCameraConfig_fail env _ _ _ _ hp]; exact h
  | true =>
    rw [newCameraConfig_ok env _ _ _ _ hp]
    unfold WF at *
    simp only [List.length_append, List.length_singleton, Nat.cast_add, Nat.cast_one]
    omega

theorem parseConfigLine_WF (env : Env) (buf : List Char) (st : Args × Machine)
    (h : WF st.2.factory) : WF (parseConfigLine env buf st).2.factory := by
  unfold parseConfigLine
  simp only
  split
  · exact h
  · split
    · exact newCameraConfig_WF env _ _ _ _ h
    · split
      · exact newCameraConfig_WF env _ _ _ _ h
      · exact h

theorem fallbackBody_WF (env : Env) (st : Fallback × Machine) (h : WF st.2.factory) :
    WF (fallbackBody env st).2.factory := by
  unfold fallbackBody
  simp only
  split
  · split <;> exact newCameraConfig_WF env _ _ _ _ h
  · exact h

theorem fallbackLoopAux_WF (env : Env) (fuel : Nat) (st : Fallback × Machine)
    (h : WF st.2.factory) : WF (fallbackLoopAux env fuel st).2.factory := by
  induction fuel generalizing st with
  | zero => exact h
  | succ n ih =>
    unfold fallbackLoopAux
    split
    · exact ih _ (fallbackBody_WF env st h)
    · exact h

/-- Discovery keeps the four arrays at `mCameraNum` elements each. -/
theorem parseConfig_WF (env : Env) (config : Option (List Char)) (uninit : Args) (m : Machine)
    (h : WF m.factory) : WF (parseConfig env config uninit m).factory := by
  cases config with
  | none =>
    unfold parseConfig fallbackLoop
    exact fallbackLoopAux_WF env _ _ h
  | some stream =>
    rw [parseConfig_some]
    generalize fgetsLines stream = lines
    generalize hst : (uninit, m) = st
    have hw : WF st.2.factory := by rw [← hst]; exact h
    clear hst
    induction lines generalizing st with
    | nil => exact hw
    | cons buf lines ih =>
      rw [List.foldl_cons]
      exact ih _ (parseConfigLine_WF env buf st hw)

/-- Every registry that the program reaches is well formed: discovery from
the constructor's state, then any sequence of handler calls. -/
theorem reachable_WF (env : Env) (config : Option (List Char)) (uninit : Args)
    (calls : List Call) :
    WF (runCalls env calls (parseConfig env config uninit Machine.init)).factory := by
  apply runCalls_WF
  apply parseConfig_WF
  decide

/-! ## Lemmas on the lines of a file -/

theorem specLines_ne_nil (c : Char) (s : List Char) : specLines (c :: s) ≠ [] := by
  unfold specLines
  split
  · simp
  · split <;> simp

/-- When the first line of a text fits the room of the buffer, `fgets` stores
that line and leaves the other lines. -/
theorem fgetsAux_specLines (room : Nat) (s : List Char) (l : List Char) (ls : List (List Char))
    (h : specLines s = l :: ls) (hlen : l.length ≤ room) :
    (fgetsAux room s).1 = l ∧ specLines (fgetsAux room s).2 = ls := by
  induction s generalizing room l ls with
  | nil => simp [specLines] at h
  | cons c t ih =>
    cases room with
    | zero =>
      -- a line is never empty
      exfalso
      unfold specLines at h
      split at h
      · simp only [List.cons.injEq] at h
        rw [← h.1] at hlen
        simp at hlen
      · split at h <;>
          (simp only [List.cons.injEq] at h
           rw [← h.1] at hlen
           simp at hlen)
    | succ n =>
      unfold specLines at h
      unfold fgetsAux
      by_cases hc : c = '\n'
      · simp only [hc, if_true, List.cons.injEq] at h ⊢
        exact ⟨h.1, h.2⟩
      · simp only [hc, if_false] at h ⊢
        cases ht : specLines t with
        | nil =>
          rw [ht] at h
          simp only [List.cons.injEq] at h
          have htnil : t = [] := by
            cases t with
            | nil => rfl
            | cons d t' => exact absurd ht (specLines_ne_nil d t')
          subst htnil
          cases n <;> simp [fgetsAux, List.cons, specLines, h.1, h.2.symm]
        | cons l' ls' =>
          rw [ht] at h
          simp only [List.cons.injEq] at h
          have hl : l'.length ≤ n := by
            rw [← h.1] at hlen
            simp only [List.length_cons] at hlen
            omega
          obtain ⟨i1, i2⟩ := ih n l' ls' ht hl
          refine ⟨?_, ?_⟩
          · show c :: (fgetsAux n t).1 = l
            rw [i1]; exact h.1
          · show specLines (fgetsAux n t).2 = ls
            rw [i2]; exact h.2

/-- When every line of the file has at most 127 characters, newline included,
the buffers that the loop of `parseConfig` processes are the lines of the file. -/
theorem fgetsLines_eq_specLines (content : List Char)
    (h : ∀ l ∈ specLines content, l.length ≤ 127) : fgetsLines content = specLines content := by
  generalize hn : content.length = n
  induction n using Nat.strong_induction_on generalizing content with
  | _ n ih =>
    rw [fgetsLines_unfold]
    cases content with
    | nil => rfl
    | cons c s =>
      cases hs : specLines (c :: s) with
      | nil => exact absurd hs (specLines_ne_nil c s)
      | cons l ls =>
        have hl : l.length ≤ 127 := h l (by rw [hs]; exact List.mem_cons_self _ _)
        obtain ⟨e1, e2⟩ := fgetsAux_specLines 127 (c :: s) l ls hs hl
        have hf : fgets 128 (c :: s) = some (fgetsAux 127 (c :: s)) := rfl
        have hlt : (fgetsAux 127 (c :: s)).2.length < (c :: s).length :=
          (fgets_some (c :: s) (fgetsAux 127 (c :: s)).1 (fgetsAux 127 (c :: s)).2 hf).1
        rw [hf]
        simp only
        rw [e1]
        congr 1
        rw [← e2]
        apply ih _ (by omega) _ _ rfl
        intro l0 hl0
        rw [e2] at hl0
        exact h l0 (by rw [hs]; exact List.mem_cons_of_mem _ hl0)

/-! ## Discovery: claims -/

/-- C5 (amended). When every line of the configuration file has at most 127
characters, newline included, and is a comment or an entry: a line without a
NUL character, of exactly three tokens (`front` or `back`, a location, an
integer in the range of a 32-bit `int`), then discovery from the empty
registry yields exactly the entries whose location probes successfully, in
file order: the k-th of them is record k, with its facing, its location, its
normalised orientation and no handle, and `getCameraNum()` is their number. -/
theorem config_file_table (env : Env) (uninit : Args) (content : List Char)
    (hlen : ∀ l ∈ specLines content, l.length ≤ 127)
    (h : ∀ l ∈ specLines content, specComment l = true ∨
      (noNul l = true ∧ orientationFitsInt l = true ∧ (specEntry l).isSome = true)) :
    (parseConfig env (some content) uninit Machine.init).factory =
      specRegistry (specTable env content) ∧
    getCameraNum (parseConfig env (some content) uninit Machine.init).factory =
      (specTable env content).length ∧
    ∀ (k : Nat) (e : Entry), (specTable env content)[k]? = some e →
      (parseConfig env (some content) uninit Machine.init).factory.mCameraDevices[k]? =
        some e.location ∧
      getCameraInfo env k (parseConfig env (some content) uninit Machine.init) =
        (env.getCameraInfo e.facing e.orientation,
         { factory := (parseConfig env (some content) uninit Machine.init).factory,
           trace := (parseConfig env (some content) uninit Machine.init).trace ++
             [Event.getCameraInfo e.facing e.orientation] }) := by
  have hlines := fgetsLines_eq_specLines content hlen
  have hf : (parseConfig env (some content) uninit Machine.init).factory =
      specRegistry (specTable env content) := by
    rw [parseConfig_entries env uninit content (by rw [hlines]; exact h), hlines]
    rfl
  refine ⟨hf, ?_, ?_⟩
  · rw [hf]; rfl
  · intro k e hk
    have hlt : k < (specTable env content).length := by
      rcases List.getElem?_eq_some.mp hk with ⟨hlt, -⟩
      exact hlt
    have hid : 0 ≤ (k : Int) ∧ (k : Int) <
        getCameraNum (parseConfig env (some content) uninit Machine.init).factory := by
      rw [hf]
      simp only [getCameraNum, specRegistry]
      omega
    refine ⟨?_, ?_⟩
    · rw [hf]
      simp [specRegistry, hk]
    · rw [getCameraInfo_valid env k _ hid, hf]
      simp [specRegistry, hk]

/-- C5, at the file `front /dev/video0 0`, `back /dev/video1 180` with both
probes succeeding: two records, the first (FRONT, 0), the second (BACK, 180). -/
theorem config_file_table_witness :
    (∀ l ∈ specLines sampleConfig, l.length ≤ 127) ∧
    (∀ l ∈ specLines sampleConfig, specComment l = true ∨
      (noNul l = true ∧ orientationFitsInt l = true ∧ (specEntry l).isSome = true)) ∧
    specTable envAllOk sampleConfig =
      [{ facing := CAMERA_FACING_FRONT, location := "/dev/video0".toList, orientation := 0 },
       { facing := CAMERA_FACING_BACK, location := "/dev/video1".toList, orientation := 180 }] ∧
    sampleMachine.factory = specRegistry (specTable envAllOk sampleConfig) ∧
    getCameraNum sampleMachine.factory = 2 ∧
    (getCameraInfo envAllOk 0 sampleMachine).2.trace.getLast? =
      some (Event.getCameraInfo CAMERA_FACING_FRONT 0) ∧
    (getCameraInfo envAllOk 1 sampleMachine).2.trace.getLast? =
      some (Event.getCameraInfo CAMERA_FACING_BACK 180) :=
  ⟨by decide, by decide, by decide,
   (config_file_table envAllOk sampleUninit sampleConfig (by decide) (by decide)).1,
   by decide, by decide, by decide⟩

set_option maxRecDepth 100000 in
/-- C5 as stated fails on three files in which every line has exactly three
tokens, a keyword, a location and an integer, with every probe succeeding.

A line longer than the buffer: in `front /dev/video0 0` followed by `back`,
123 blanks, `/dev/video1 180`, the entries are `/dev/video0` and
`/dev/video1`, but `fgets` cuts the second line after 127 characters: the
loop sees `back` alone, reuses the location and orientation left by the first
line, and records `/dev/video0` twice.

An integer outside the range of `int`: in `front /dev/video0 4294967386`,
`back /dev/video1 -4294967026` neither integer is 0, 90, 180 or 270, so the
normalised orientations are 0 and 0, but `%d` stores 90 and 270 in `arg3` and
these are recorded.

A NUL character: in `front /dev/video0 0` followed by `back`, `/dev/video1`
with a NUL character appended, `180`, the string in the buffer ends at the
NUL, `%d` finds no input, and the record gets the orientation 0 left by the
first line, not 180. -/
theorem config_file_table_counterexample :
    ((∀ l ∈ specLines longEntryConfig, specComment l = true ∨ (specEntry l).isSome = true) ∧
     (specLines longEntryConfig).map List.length = [20, 143] ∧
     (specTable envAllOk longEntryConfig).map (fun e => (e.location, e.orientation)) =
       [("/dev/video0".toList, 0), ("/dev/video1".toList, 180)] ∧
     (parseConfig envAllOk (some longEntryConfig) sampleUninit
       Machine.init).factory.mCameraDevices = ["/dev/video0".toList, "/dev/video0".toList] ∧
     (parseConfig envAllOk (some longEntryConfig) sampleUninit
       Machine.init).factory.mCameraOrientation = [0, 0] ∧
     (parseConfig envAllOk (some longEntryConfig) sampleUninit Machine.init).factory ≠
       specRegistry (specTable envAllOk longEntryConfig)) ∧
    ((∀ l ∈ specLines wideConfig, specComment l = true ∨ (specEntry l).isSome = true) ∧
     (specLines wideConfig).map (fun l => (specTokens l).map specInteger) =
       [[none, none, some 4294967386], [none, none, some (-4294967026)]] ∧
     (specTable envAllOk wideConfig).map (fun e => (e.location, e.orientation)) =
       [("/dev/video0".toList, 0), ("/dev/video1".toList, 0)] ∧
     (parseConfig envAllOk (some wideConfig) sampleUninit
       Machine.init).factory.mCameraOrientation = [90, 270] ∧
     (parseConfig envAllOk (some wideConfig) sampleUninit Machine.init).factory ≠
       specRegistry (specTable envAllOk wideConfig)) ∧
    ((∀ l ∈ specLines nulConfig, specComment l = true ∨ (specEntry l).isSome = true) ∧
     (specLines nulConfig).map List.length = [20, 22] ∧
     (specTable envAllOk nulConfig).map (fun e => e.orientation) = [0, 180] ∧
     (parseConfig envAllOk (some nulConfig) sampleUninit
       Machine.init).factory.mCameraDevices = ["/dev/video0".toList, "/dev/video1".toList] ∧
     (parseConfig envAllOk (some nulConfig) sampleUninit
       Machine.init).factory.mCameraOrientation = [0, 0] ∧
     (parseConfig envAllOk (some nulConfig) sampleUninit Machine.init).factory ≠
       specRegistry (specTable envAllOk nulConfig)) := by
  refine ⟨?_, ?_, ?_⟩
  · decide
  · decide
  · decide

/-- C6. When a line that is not skipped fills all three variables, `arg3`
with the integer `v`, the orientation handed to `newCameraConfig` (and stored
in the new record when the probe succeeds) is `v` when `v` is 0, 90, 180 or
270, and 0 for every other `v`.  The integer parsed is an `int`: for a line of
three tokens whose third writes the integer `w`, it is `w` when `w` is in the
range of `int`, and otherwise what `%d` stores for `w`. -/
theorem orientation_normalised (env : Env) (buf : List Char) (st : Args × Machine)
    (a1 a2 : CStr) (v : Int) (hnc : commentLine (cstr buf) = false)
    (hscan : sscanf_s_s_d (cstr buf) st.1 = (3, { arg1 := a1, arg2 := a2, arg3 := v })) :
    (a1 = "front".toList →
      (parseConfigLine env buf st).2 =
        newCameraConfig env CAMERA_FACING_FRONT a2
          (if v = 0 ∨ v = 90 ∨ v = 180 ∨ v = 270 then v else 0) st.2) ∧
    (a1 ≠ "front".toList → a1 = "back".toList →
      (parseConfigLine env buf st).2 =
        newCameraConfig env CAMERA_FACING_BACK a2
          (if v = 0 ∨ v = 90 ∨ v = 180 ∨ v = 270 then v else 0) st.2) ∧
    ((a1 = "front".toList ∨ a1 = "back".toList) → probeOk env a2 = true →
      (parseConfigLine env buf st).2.factory.mCameraOrientation =
        st.2.factory.mCameraOrientation ++
          [if v = 0 ∨ v = 90 ∨ v = 180 ∨ v = 270 then v else 0]) ∧
    (INT_MIN ≤ v ∧ v ≤ INT_MAX) ∧
    (∀ (kw loc ori : List Char) (w : Int), specTokens (cstr buf) = [kw, loc, ori] →
      specInteger ori = some w →
      v = toInt32 (clamp64 w) ∧ (INT_MIN ≤ w ∧ w ≤ INT_MAX → v = w)) := by
  have hn : normalizeArg3 v = (if v = 0 ∨ v = 90 ∨ v = 180 ∨ v = 270 then v else 0) :=
    normalizeArg3_eq v
  have hfront : a1 = "front".toList →
      (parseConfigLine env buf st).2 =
        newCameraConfig env CAMERA_FACING_FRONT a2
          (if v = 0 ∨ v = 90 ∨ v = 180 ∨ v = 270 then v else 0) st.2 := by
    intro h1
    unfold parseConfigLine
    simp only [hnc, hscan, hn, h1]
    simp
  have hback : a1 ≠ "front".toList → a1 = "back".toList →
      (parseConfigLine env buf st).2 =
        newCameraConfig env CAMERA_FACING_BACK a2
          (if v = 0 ∨ v = 90 ∨ v = 180 ∨ v = 270 then v else 0) st.2 := by
    intro h1 h2
    unfold parseConfigLine
    simp only [hnc, hscan, hn]
    simp [h1, h2]
  refine ⟨hfront, hback, ?_, sscanf_three_range (cstr buf) st.1 _ hscan, ?_⟩
  · intro hk hp
    by_cases h1 : a1 = "front".toList
    · rw [hfront h1, newCameraConfig_ok env _ _ _ _ hp]
    · have h2 : a1 = "back".toList := by
        rcases hk with hk | hk
        · exact absurd hk h1
        · exact hk
      rw [hback h1 h2, newCameraConfig_ok env _ _ _ _ hp]
  · intro kw loc ori w htok hw
    have he := sscanf_entry (cstr buf) st.1 kw loc ori w htok hw
    rw [hscan] at he
    simp only [Prod.mk.injEq, Args.mk.injEq, true_and] at he
    refine ⟨he.2.2, ?_⟩
    intro hr
    rw [he.2.2, toInt32_clamp64 w hr]

/-- C6, at the line `front /dev/video0 999`: the orientation stored is 0.  At
the lines `back /dev/video1 -90` and `back /dev/video1 270` it is 0 and 270.
At the line `front /dev/video0 4294967386` the integer that `%d` stores in
the `int` is 90, and the orientation stored is 90. -/
theorem orientation_normalised_witness :
    commentLine (cstr "front /dev/video0 999\n".toList) = false ∧
    sscanf_s_s_d (cstr "front /dev/video0 999\n".toList) sampleUninit =
      (3, { arg1 := "front".toList, arg2 := "/dev/video0".toList, arg3 := 999 }) ∧
    (parseConfigLine envAllOk "front /dev/video0 999\n".toList
        (sampleUninit, Machine.init)).2.factory.mCameraOrientation = [0] ∧
    (parseConfigLine envAllOk "back /dev/video1 -90\n".toList
        (sampleUninit, Machine.init)).2.factory.mCameraOrientation = [0] ∧
    (parseConfigLine envAllOk "back /dev/video1 270\n".toList
        (sampleUninit, Machine.init)).2.factory.mCameraOrientation = [270] ∧
    sscanf_s_s_d (cstr "front /dev/video0 4294967386\n".toList) sampleUninit =
      (3, { arg1 := "front".toList, arg2 := "/dev/video0".toList, arg3 := 90 }) ∧
    (parseConfigLine envAllOk "front /dev/video0 4294967386\n".toList
        (sampleUninit, Machine.init)).2.factory.mCameraOrientation = [90] :=
  ⟨by decide, by decide,
   (orientation_normalised envAllOk "front /dev/video0 999\n".toList
      (sampleUninit, Machine.init) "front".toList "/dev/video0".toList 999
      (by decide) (by decide)).2.2.1 (Or.inl rfl) (by decide),
   by decide, by decide, by decide, by decide⟩

/-- C7 (amended). A line as the loop reads it (the buffer of one `fgets`
call) that holds no NUL character and whose keyword, its first token, is
neither `front` nor `back` leaves the machine as it was, whatever the three
variables held from earlier lines and whatever the probe would answer: no
record is appended, `getCameraNum()` and the records are unchanged, and
nothing is probed.  The buffer is a whole line of the file when that line has
at most 127 characters, newline included (`fgetsLines_eq_specLines`). -/
theorem unknown_keyword_ignored (env : Env) (buf : List Char) (st : Args × Machine)
    (kw : List Char) (hnul : noNul buf = true) (hkw : (specTokens buf).head? = some kw)
    (h1 : kw ≠ "front".toList) (h2 : kw ≠ "back".toList) :
    (parseConfigLine env buf st).2 = st.2 ∧
    getCameraNum (parseConfigLine env buf st).2.factory = getCameraNum st.2.factory := by
  have key : (parseConfigLine env buf st).2 = st.2 := by
    rw [← cstr_noNul buf hnul] at hkw
    have ht := specTokens_scanS (cstr buf)
    cases hs : scanS (cstr buf) with
    | none =>
      rw [hs] at ht
      rw [ht] at hkw
      cases hkw
    | some p =>
      obtain ⟨t, r⟩ := p
      rw [hs] at ht
      rw [ht] at hkw
      simp only [List.head?_cons, Option.some.injEq] at hkw
      have ha := sscanf_arg1 (cstr buf) st.1 t r hs
      rw [hkw] at ha
      apply parseConfigLine_other
      · rw [ha]; exact h1
      · rw [ha]; exact h2
  exact ⟨key, by rw [key]⟩

/-- C7, at the line `rear /dev/video0 0` read after a `front` line, with every
probe succeeding. -/
theorem unknown_keyword_ignored_witness :
    noNul "rear /dev/video0 0\n".toList = true ∧
    (specTokens "rear /dev/video0 0\n".toList).head? = some "rear".toList ∧
    (parseConfigLine envAllOk "rear /dev/video0 0\n".toList sampleLoopState).2 =
      sampleLoopState.2 ∧
    getCameraNum (parseConfigLine envAllOk "rear /dev/video0 0\n".toList
      sampleLoopState).2.factory = 2 :=
  ⟨by decide, by decide,
   (unknown_keyword_ignored envAllOk "rear /dev/video0 0\n".toList sampleLoopState
      "rear".toList (by decide) (by decide) (by decide) (by decide)).1,
   by decide⟩

set_option maxRecDepth 100000 in
/-- C7 as stated fails on two lines.

A line longer than the buffer: the file is one line of 147 characters, `rear`,
123 blanks, `front /dev/video0 0`.  Its keyword is `rear`, but `fgets` cuts it
after 127 characters and the loop processes the rest, `front /dev/video0 0`,
as a line of its own: a record is appended.

A NUL character: the line of 20 characters that is a NUL character followed by
`rear /dev/video0 0` has a first token that is neither `front` nor `back`, but
the string in the buffer is empty, `sscanf` stores nothing, and the loop acts
on `front /dev/video0 0` left by the line before: a third record is appended
to the two that were there. -/
theorem unknown_keyword_counterexample :
    (specLines longUnknown = [longUnknown] ∧
     longUnknown.length = 147 ∧
     (specTokens longUnknown).head? = some "rear".toList ∧
     getCameraNum Machine.init.factory = 0 ∧
     getCameraNum (parseConfig envAllOk (some longUnknown) sampleUninit
       Machine.init).factory = 1) ∧
    (nulUnknown.length = 20 ∧
     (specTokens nulUnknown).head? = some ('\x00' :: "rear".toList) ∧
     '\x00' :: "rear".toList ≠ "front".toList ∧
     '\x00' :: "rear".toList ≠ "back".toList ∧
     getCameraNum sampleLoopState.2.factory = 2 ∧
     getCameraNum (parseConfigLine envAllOk nulUnknown sampleLoopState).2.factory = 3 ∧
     (parseConfigLine envAllOk nulUnknown sampleLoopState).2.factory.mCameraDevices =
       ["/dev/video0".toList, "/dev/video1".toList, "/dev/video0".toList]) := by
  refine ⟨?_, ?_⟩
  · decide
  · decide

/-- C8 (amended). A line as the loop reads it (the buffer of one `fgets` call)
whose first non-whitespace character is `#` leaves the machine as it was,
whatever follows the `#` and whichever of the six white-space characters
precede it: no record is appended, the registry is unchanged and nothing is
probed.  The buffer is a whole line of the file when that line has at most
127 characters, newline included (`fgetsLines_eq_specLines`). -/
theorem comment_line_ignored (env : Env) (buf : List Char) (st : Args × Machine)
    (h : specComment buf = true) :
    (parseConfigLine env buf st).2.factory = st.2.factory ∧
    (parseConfigLine env buf st).2.trace = st.2.trace ∧
    getCameraNum (parseConfigLine env buf st).2.factory = getCameraNum st.2.factory := by
  have key := parseConfigLine_comment env buf st h
  rw [key]
  exact ⟨rfl, rfl, rfl⟩

/-- C8, at a line that starts with a form feed, which `strspn` does not skip,
and goes on with `# front /dev/video0 0`. -/
theorem comment_line_ignored_witness :
    specComment " \x0c # front /dev/video0 0\n".toList = true ∧
    commentLine (cstr " \x0c # front /dev/video0 0\n".toList) = false ∧
    (parseConfigLine envAllOk " \x0c # front /dev/video0 0\n".toList
      sampleLoopState).2.factory = sampleLoopState.2.factory ∧
    (parseConfigLine envAllOk " \x0c # front /dev/video0 0\n".toList
      sampleLoopState).2.trace = sampleLoopState.2.trace :=
  ⟨by decide, by decide,
   (comment_line_ignored envAllOk " \x0c # front /dev/video0 0\n".toList sampleLoopState
      (by decide)).1,
   (comment_line_ignored envAllOk " \x0c # front /dev/video0 0\n".toList sampleLoopState
      (by decide)).2.1⟩

set_option maxRecDepth 100000 in
/-- C8 as stated fails on a line longer than the buffer.  The file is one line
of 147 characters: `#`, 126 times `x`, `front /dev/video0 0`.  Its first
character is `#`, but `fgets` cuts it after 127 characters and the loop
processes the rest, `front /dev/video0 0`, as a line of its own: the device
is probed and a record is appended. -/
theorem comment_line_counterexample :
    specLines longComment = [longComment] ∧
    longComment.length = 147 ∧
    specComment longComment = true ∧
    getCameraNum Machine.init.factory = 0 ∧
    getCameraNum (parseConfig envAllOk (some longComment) sampleUninit
      Machine.init).factory = 1 ∧
    (parseConfig envAllOk (some longComment) sampleUninit Machine.init).trace =
      [Event.v4l2Open "/dev/video0".toList, Event.v4l2GetFps "/dev/video0".toList] := by
  decide

/-- C9. When the probe of `location` fails (the device cannot be opened, or
its best preview format has a zero frame rate), `newCameraConfig` leaves the
registry as it was: `getCameraNum()` is not incremented and no record is
added or modified. -/
theorem failed_probe_adds_nothing (env : Env) (facing : Int) (location : CStr)
    (orientation : Int) (m : Machine)
    (h : env.v4l2Open location ≠ 0 ∨ env.v4l2GetFps location = 0) :
    (newCameraConfig env facing location orientation m).factory = m.factory ∧
    getCameraNum (newCameraConfig env facing location orientation m).factory =
      getCameraNum m.factory := by
  have key := newCameraConfig_fail env facing location orientation m
    ((probeOk_false_iff env location).mpr h)
  rw [key]
  exact ⟨rfl, rfl⟩

/-- C9, at the file whose only line is `front /dev/video9 999` when no device
can be opened: discovery ends with `getCameraNum() = 0`. -/
theorem failed_probe_adds_nothing_witness :
    (envNoDevice.v4l2Open "/dev/video9".toList ≠ 0 ∨
      envNoDevice.v4l2GetFps "/dev/video9".toList = 0) ∧
    (newCameraConfig envNoDevice CAMERA_FACING_FRONT "/dev/video9".toList 0
      Machine.init).factory = Machine.init.factory ∧
    getCameraNum (parseConfig envNoDevice (some "front /dev/video9 999\n".toList)
      sampleUninit Machine.init).factory = 0 ∧
    getCameraNum (parseConfig envNoDevice (some "front /dev/video9 999".toList)
      sampleUninit Machine.init).factory = 0 :=
  ⟨by decide,
   (failed_probe_adds_nothing envNoDevice CAMERA_FACING_FRONT "/dev/video9".toList 0
      Machine.init (by decide)).1,
   by decide, by decide⟩

/-- C10. From the empty registry, fallback discovery (the configuration file
cannot be opened) ends with at most 3 records, whatever `access`, the
property store and the probe answer. -/
theorem fallback_at_most_three (env : Env) (uninit : Args) :
    getCameraNum (parseConfig env none uninit Machine.init).factory ≤ 3 := by
  unfold getCameraNum parseConfig fallbackLoop
  apply fallbackLoopAux_count
  decide

/-! ## The handlers: samples -/

/-- C1, at the two-camera registry with the ids 2 and -1. -/
theorem out_of_range_rejected_witness :
    ((2 : Int) < 0 ∨ (2 : Int) ≥ getCameraNum sampleMachine.factory) ∧
    cameraDeviceOpen envAllOk 7 2 sampleMachine = (-EINVAL, sampleMachine) ∧
    getCameraInfo envAllOk 2 sampleMachine = (-EINVAL, sampleMachine) ∧
    cameraDeviceOpen envAllOk 7 (-1) sampleMachine = (-EINVAL, sampleMachine) :=
  ⟨by decide,
   (out_of_range_rejected envAllOk 7 2 sampleMachine (by decide)).1,
   (out_of_range_rejected envAllOk 7 2 sampleMachine (by decide)).2.1,
   (out_of_range_rejected envAllOk 7 (-1) sampleMachine (by decide)).1⟩

/-- C2, at id 1 of the two-camera registry: (BACK, 180) before and after the
other camera is opened. -/
theorem getCameraInfo_reports_record_witness :
    WF sampleMachine.factory ∧
    (0 ≤ (1 : Int) ∧ (1 : Int) < getCameraNum sampleMachine.factory) ∧
    (∃ facing orientation : Int,
      sampleMachine.factory.mCameraFacing[(1 : Int).toNat]? = some facing ∧
      sampleMachine.factory.mCameraOrientation[(1 : Int).toNat]? = some orientation ∧
      ∀ calls : List Call,
        getCameraInfo envAllOk 1 (runCalls envAllOk calls sampleMachine) =
          (envAllOk.getCameraInfo facing orientation,
           { factory := (runCalls envAllOk calls sampleMachine).factory,
             trace := (runCalls envAllOk calls sampleMachine).trace ++
               [Event.getCameraInfo facing orientation] }) ∧
        (runCalls envAllOk calls sampleMachine).factory.mCameraFacing =
          sampleMachine.factory.mCameraFacing ∧
        (runCalls envAllOk calls sampleMachine).factory.mCameraOrientation =
          sampleMachine.factory.mCameraOrientation ∧
        (envAllOk.getCameraInfo facing orientation ≠ -EINVAL →
          (getCameraInfo envAllOk 1 (runCalls envAllOk calls sampleMachine)).1 ≠ -EINVAL)) ∧
    (getCameraInfo envAllOk 1
      (runCalls envAllOk [Call.openDevice 7 0, Call.getInfo 1] sampleMachine)).2.trace.getLast?
      = some (Event.getCameraInfo CAMERA_FACING_BACK 180) :=
  ⟨by decide, by decide,
   getCameraInfo_reports_record envAllOk 1 sampleMachine (by decide) (by decide),
   by decide⟩

/-- C3, at id 0 of the two-camera registry, where no handle exists yet: after
two opens one handle has been constructed, and both opens left it in slot 0. -/
theorem open_twice_constructs_once_witness :
    WF sampleMachine.factory ∧
    (0 ≤ (0 : Int) ∧ (0 : Int) < getCameraNum sampleMachine.factory) ∧
    constructions sampleMachine.trace = 0 ∧
    constructions (cameraDeviceOpen envAllOk 8 0
      (cameraDeviceOpen envAllOk 7 0 sampleMachine).2).2.trace = 1 ∧
    (∃ h : CameraHardware,
      (cameraDeviceOpen envAllOk 7 0 sampleMachine).2.factory.mCamera[(0 : Int).toNat]?
        = some (some h) ∧
      (cameraDeviceOpen envAllOk 8 0
        (cameraDeviceOpen envAllOk 7 0 sampleMachine).2).2.factory.mCamera[(0 : Int).toNat]?
        = some (some h)) :=
  ⟨by decide, by decide, by decide, by decide,
   (open_twice_constructs_once envAllOk 7 8 0 sampleMachine (by decide) (by decide)).imp
     (fun _ hh => ⟨hh.1, hh.2.1⟩)⟩

/-- C4, at id 1 of the two-camera registry: the handle is made from
`/dev/video1`. -/
theorem open_dispatches_to_record_witness :
    WF sampleMachine.factory ∧
    (0 ≤ (1 : Int) ∧ (1 : Int) < getCameraNum sampleMachine.factory) ∧
    (cameraDeviceOpen envAllOk 7 1 sampleMachine).2.factory.mCamera =
      [none, some { serial := 0, module := 7, location := "/dev/video1".toList }] ∧
    (∃ h : CameraHardware,
      (cameraDeviceOpen envAllOk 7 1 sampleMachine).2.factory.mCamera[(1 : Int).toNat]?
        = some (some h) ∧
      (cameraDeviceOpen envAllOk 7 1 sampleMachine).1 =
        envAllOk.connectCamera (cameraDeviceOpen envAllOk 7 1 sampleMachine).2.trace.dropLast h) :=
  ⟨by decide, by decide, by decide,
   (open_dispatches_to_record envAllOk 7 1 sampleMachine (by decide) (by decide)).imp
     (fun _ hh => ⟨hh.1, hh.2.1⟩)⟩

/-! ## Lemmas on the fallback loop -/

theorem parseConfig_none (env : Env) (uninit : Args) (m : Machine) :
    parseConfig env none uninit m = (fallbackLoop env (fallbackInit m)).2 := rfl

theorem iterate_advance (env : Env) (n : Nat) (st : Fallback × Machine) :
    ((fallbackBody env)^[n] st).1.node10 = st.1.node10 + n ∧
    ((fallbackBody env)^[n] st).1.prop11 = st.1.prop11 + n := by
  induction n generalizing st with
  | zero => simp
  | succ k ih =>
    rw [Function.iterate_succ_apply]
    obtain ⟨h1, h2⟩ := ih (fallbackBody env st)
    obtain ⟨b1, b2⟩ := fallbackBody_advance env st
    rw [h1, h2, b1, b2]
    omega

/-- The loop is the body applied as long as the condition holds. -/
theorem fallbackLoopAux_iterate (env : Env) (fuel : Nat) (st : Fallback × Machine) :
    ∃ n, n ≤ fuel ∧ fallbackLoopAux env fuel st = (fallbackBody env)^[n] st ∧
      (∀ k, k < n → fallbackCond ((fallbackBody env)^[k] st) = true) ∧
      (n < fuel → fallbackCond ((fallbackBody env)^[n] st) = false) := by
  induction fuel generalizing st with
  | zero => exact ⟨0, Nat.le_refl 0, rfl, fun k hk => absurd hk (Nat.not_lt_zero k), fun h => absurd h (Nat.lt_irrefl 0)⟩
  | succ f ih =>
    unfold fallbackLoopAux
    cases hc : fallbackCond st with
    | false =>
      refine ⟨0, Nat.zero_le _, by simp, fun k hk => absurd hk (Nat.not_lt_zero k), fun _ => hc⟩
    | true =>
      obtain ⟨n, hn, he, hk, hstop⟩ := ih (fallbackBody env st)
      refine ⟨n + 1, by omega, ?_, ?_, ?_⟩
      · simp only [if_true]
        rw [he, Function.iterate_succ_apply]
      · intro k hk'
        cases k with
        | zero => exact hc
        | succ j =>
          rw [Function.iterate_succ_apply]
          exact hk j (by omega)
      · intro hlt
        rw [Function.iterate_succ_apply]
        exact hstop (by omega)

/-- The fallback loop from the first candidate: it runs `n ≤ 10` iterations,
its condition holds before each of them and fails after the last. -/
theorem fallbackLoop_run (env : Env) (m : Machine) :
    ∃ n, n ≤ 10 ∧
      fallbackLoop env (fallbackInit m) = (fallbackBody env)^[n] (fallbackInit m) ∧
      (∀ k, k < n → fallbackCond ((fallbackBody env)^[k] (fallbackInit m)) = true) ∧
      fallbackCond ((fallbackBody env)^[n] (fallbackInit m)) = false := by
  obtain ⟨n, hn, he, hk, hstop⟩ := fallbackLoopAux_iterate env 10 (fallbackInit m)
  refine ⟨n, hn, he, hk, ?_⟩
  by_cases hlt : n < 10
  · exact hstop hlt
  · have h10 : n = 10 := by omega
    have hnode := (iterate_advance env n (fallbackInit m)).1
    unfold fallbackCond
    rw [hnode, h10]
    simp [fallbackInit]

theorem digit_char (k : Nat) (h : k ≤ 9) : Char.ofNat ('0'.toNat + k) = Nat.digitChar k := by
  interval_cases k <;> rfl

/-- Before iteration `k` the two strings name candidate `k`. -/
theorem iterate_names (env : Env) (m : Machine) (k : Nat) (h : k ≤ 9) :
    ((fallbackBody env)^[k] (fallbackInit m)).1.camera_node = videoNode k ∧
    ((fallbackBody env)^[k] (fallbackInit m)).1.camera_prop = cameraProp k := by
  obtain ⟨h1, h2⟩ := iterate_advance env k (fallbackInit m)
  unfold Fallback.camera_node Fallback.camera_prop videoNode cameraProp
  rw [h1, h2]
  simp only [fallbackInit]
  rw [digit_char k h]
  exact ⟨rfl, rfl⟩

theorem newCameraConfig_trace (env : Env) (facing : Int) (location : CStr) (orientation : Int)
    (m : Machine) :
    (newCameraConfig env facing location orientation m).trace =
      m.trace ++ (Event.v4l2Open location ::
        (if env.v4l2Open location = 0 then [Event.v4l2GetFps location] else [])) := by
  unfold newCameraConfig
  by_cases h1 : env.v4l2Open location = 0
  · by_cases h2 : env.v4l2GetFps location = 0 <;> simp [h1, h2]
  · simp [h1]

/-- The calls of one iteration of the fallback loop: `access` on the node,
and for an accessible node `property_get` on the key and the probe of the node. -/
theorem fallbackBody_trace (env : Env) (st : Fallback × Machine) :
    (fallbackBody env st).2.trace =
      st.2.trace ++ (Event.access st.1.camera_node ::
        (if env.access st.1.camera_node = 0 then
          Event.property_get st.1.camera_prop :: Event.v4l2Open st.1.camera_node ::
            (if env.v4l2Open st.1.camera_node = 0 then [Event.v4l2GetFps st.1.camera_node]
             else [])
         else [])) := by
  unfold fallbackBody
  simp only
  split
  · split <;> (rw [newCameraConfig_trace]; simp)
  · simp

/-- The registry after one iteration of the fallback loop. -/
theorem fallbackBody_factory (env : Env) (st : Fallback × Machine) :
    (fallbackBody env st).2.factory =
      if env.access st.1.camera_node = 0 ∧ probeOk env st.1.camera_node = true then
        { mCamera := st.2.factory.mCamera ++ [none],
          mCameraDevices := st.2.factory.mCameraDevices ++ [st.1.camera_node],
          mCameraFacing := st.2.factory.mCameraFacing ++
            [if (env.property_get st.1.camera_prop).length ≠ 0 then
               (sscanf_d_d (env.property_get st.1.camera_prop) st.2.factory.mCameraNum 0).1
             else st.2.factory.mCameraNum],
          mCameraOrientation := st.2.factory.mCameraOrientation ++
            [if (env.property_get st.1.camera_prop).length ≠ 0 then
               (sscanf_d_d (env.property_get st.1.camera_prop) st.2.factory.mCameraNum 0).2
             else 0],
          mCameraNum := st.2.factory.mCameraNum + 1 }
      else st.2.factory := by
  unfold fallbackBody
  simp only
  by_cases ha : env.access st.1.camera_node = 0
  · simp only [ha, if_true, true_and]
    cases hp : probeOk env st.1.camera_node with
    | false =>
      split <;> (rw [newCameraConfig_fail env _ _ _ _ hp]; simp)
    | true =>
      split <;> (rename_i hl; rw [newCameraConfig_ok env _ _ _ _ hp]; simp [hl])
  · simp [ha]

theorem accessCount_append (t u : List Event) :
    accessCount (t ++ u) = accessCount t + accessCount u := by
  induction t with
  | nil => simp [accessCount]
  | cons e t ih => cases e <;> simp [accessCount, ih]; omega

theorem fallbackBody_accessCount (env : Env) (st : Fallback × Machine) :
    accessCount (fallbackBody env st).2.trace = accessCount st.2.trace + 1 := by
  rw [fallbackBody_trace, accessCount_append]
  by_cases ha : env.access st.1.camera_node = 0
  · by_cases ho : env.v4l2Open st.1.camera_node = 0 <;> simp [ha, ho, accessCount]
  · simp [ha, accessCount]

/-- Each iteration makes one `access` call. -/
theorem iterate_accessCount (env : Env) (n : Nat) (st : Fallback × Machine) :
    accessCount ((fallbackBody env)^[n] st).2.trace = accessCount st.2.trace + n := by
  induction n with
  | zero => simp
  | succ k ih =>
    rw [Function.iterate_succ_apply', fallbackBody_accessCount, ih]
    omega

theorem eventWithin_video (bound k : Nat) (h : k ≤ bound) :
    eventWithin bound (Event.access (videoNode k)) = true ∧
    eventWithin bound (Event.v4l2Open (videoNode k)) = true ∧
    eventWithin bound (Event.v4l2GetFps (videoNode k)) = true ∧
    eventWithin bound (Event.property_get (cameraProp k)) = true := by
  simp only [eventWithin, List.any_eq_true, List.mem_range, beq_iff_eq]
  exact ⟨⟨k, by omega, rfl⟩, ⟨k, by omega, rfl⟩, ⟨k, by omega, rfl⟩, ⟨k, by omega, rfl⟩⟩

/-- The calls and the records of the first `n ≤ 10` iterations name candidates
of index at most 9. -/
theorem iterate_within (env : Env) (m : Machine) (n : Nat) (h : n ≤ 10) :
    (∀ e ∈ ((fallbackBody env)^[n] (fallbackInit m)).2.trace,
      e ∈ m.trace ∨ eventWithin 9 e = true) ∧
    (∀ d ∈ ((fallbackBody env)^[n] (fallbackInit m)).2.factory.mCameraDevices,
      d ∈ m.factory.mCameraDevices ∨ ∃ k, k ≤ 9 ∧ d = videoNode k) := by
  induction n with
  | zero =>
    exact ⟨fun e he => Or.inl he, fun d hd => Or.inl hd⟩
  | succ k ih =>
    obtain ⟨i1, i2⟩ := ih (by omega)
    obtain ⟨hn, hp⟩ := iterate_names env m k (by omega)
    obtain ⟨w1, w2, w3, w4⟩ := eventWithin_video 9 k (by omega)
    rw [Function.iterate_succ_apply']
    constructor
    · intro e he
      rw [fallbackBody_trace, hn, hp, List.mem_append] at he
      rcases he with he | he
      · exact i1 e he
      · right
        by_cases ha : env.access (videoNode k) = 0
        · by_cases ho : env.v4l2Open (videoNode k) = 0
          · simp only [ha, ho, if_true, List.mem_cons, List.not_mem_nil, or_false] at he
            rcases he with he | he | he | he <;> (subst he; assumption)
          · simp only [ha, ho, if_true, if_false, List.mem_cons, List.mem_singleton,
              List.not_mem_nil, or_false] at he
            rcases he with he | he | he <;> (subst he; assumption)
        · simp only [ha, if_false, List.mem_cons, List.not_mem_nil, or_false] at he
          subst he; assumption
    · intro d hd
      rw [fallbackBody_factory, hn] at hd
      split at hd
      · simp only [List.mem_append, List.mem_singleton] at hd
        rcases hd with hd | hd
        · exact i2 d hd
        · exact Or.inr ⟨k, by omega, hd⟩
      · exact i2 d hd

theorem videoNode_inj (k j : Nat) (hk : k ≤ 9) (hj : j ≤ 9) (h : videoNode k = videoNode j) :
    k = j := by
  unfold videoNode at h
  have h2 : Nat.digitChar k = Nat.digitChar j := by simpa using h
  interval_cases k <;> interval_cases j <;> first | rfl | (exact absurd h2 (by decide))

theorem iterate_WF (env : Env) (n : Nat) (st : Fallback × Machine) (h : WF st.2.factory) :
    WF ((fallbackBody env)^[n] st).2.factory := by
  induction n with
  | zero => exact h
  | succ k ih =>
    rw [Function.iterate_succ_apply']
    exact fallbackBody_WF env _ ih

/-- Iteration `k` appends the node of candidate `k` or nothing. -/
theorem iterate_step_devices (env : Env) (m : Machine) (k : Nat) (h : k ≤ 9) :
    ((fallbackBody env)^[k + 1] (fallbackInit m)).2.factory.mCameraDevices =
      ((fallbackBody env)^[k] (fallbackInit m)).2.factory.mCameraDevices ++
        (if env.access (videoNode k) = 0 ∧ probeOk env (videoNode k) = true then [videoNode k]
         else []) := by
  rw [Function.iterate_succ_apply', fallbackBody_factory, (iterate_names env m k h).1]
  split <;> simp

/-- The `access` call on candidate `K` is in the trace exactly when iteration
`K` has run. -/
theorem iterate_access_mem (env : Env) (n K : Nat) (hn : n ≤ 10) (hK : K ≤ 9) :
    Event.access (videoNode K) ∈ ((fallbackBody env)^[n] (fallbackInit Machine.init)).2.trace
      ↔ K < n := by
  induction n with
  | zero => simp [fallbackInit, Machine.init]
  | succ k ih =>
    have ih' := ih (by omega)
    obtain ⟨hnode, hprop⟩ := iterate_names env Machine.init k (by omega)
    rw [Function.iterate_succ_apply', fallbackBody_trace, hnode, hprop, List.mem_append, ih']
    constructor
    · intro h
      rcases h with h | h
      · omega
      · have hk : K = k := by
          by_cases ha : env.access (videoNode k) = 0
          · by_cases ho : env.v4l2Open (videoNode k) = 0
            · simp only [ha, ho, if_true, List.mem_cons, Event.access.injEq, List.not_mem_nil,
                or_false, reduceCtorEq] at h
              exact videoNode_inj K k hK (by omega) h
            · simp only [ha, ho, if_true, if_false, List.mem_cons, Event.access.injEq,
                List.not_mem_nil, or_false, reduceCtorEq] at h
              exact videoNode_inj K k hK (by omega) h
          · simp only [ha, if_false, List.mem_cons, Event.access.injEq, List.not_mem_nil,
              or_false] at h
            exact videoNode_inj K k hK (by omega) h
        omega
    · intro h
      by_cases hlt : K < k
      · exact Or.inl hlt
      · have hk : K = k := by omega
        subst hk
        exact Or.inr (List.mem_cons_self _ _)

/-- The records of candidates below `K` after `n` iterations are the records
after `min K n` iterations. -/
theorem iterate_acceptedBelow (env : Env) (n K : Nat) (hn : n ≤ 10) (hK : K ≤ 10) :
    acceptedBelow K ((fallbackBody env)^[n] (fallbackInit Machine.init)).2.factory =
      ((fallbackBody env)^[min K n]
        (fallbackInit Machine.init)).2.factory.mCameraDevices.length := by
  induction n with
  | zero => simp [acceptedBelow, fallbackInit, Machine.init, CameraFactory.init]
  | succ k ih =>
    have ih' := ih (by omega)
    unfold acceptedBelow at *
    rw [iterate_step_devices env Machine.init k (by omega), List.filter_append,
      List.length_append, ih']
    by_cases hlt : K ≤ k
    · have e1 : min K (k + 1) = K := by omega
      have e2 : min K k = K := by omega
      rw [e1, e2]
      have hno : (List.range K).any (fun j => videoNode k == videoNode j) = false := by
        rw [Bool.eq_false_iff]
        intro hany
        simp only [List.any_eq_true, List.mem_range, beq_iff_eq] at hany
        obtain ⟨j, hj, he⟩ := hany
        have := videoNode_inj k j (by omega) (by omega) he
        omega
      split <;> simp [hno]
    · have e1 : min K (k + 1) = k + 1 := by omega
      have e2 : min K k = k := by omega
      rw [e1, e2, iterate_step_devices env Machine.init k (by omega), List.length_append]
      have hyes : (List.range K).any (fun j => videoNode k == videoNode j) = true := by
        simp only [List.any_eq_true, List.mem_range, beq_iff_eq]
        exact ⟨k, by omega, rfl⟩
      split <;> simp [hyes]

/-- The state in which the fallback loop stops, from the empty registry. -/
theorem fallbackLoop_stop (env : Env) :
    ∃ n, n ≤ 10 ∧
      fallbackLoop env (fallbackInit Machine.init) =
        (fallbackBody env)^[n] (fallbackInit Machine.init) ∧
      (∀ k, k < n →
        getCameraNum ((fallbackBody env)^[k] (fallbackInit Machine.init)).2.factory < 3) ∧
      (n = 10 ∨
        getCameraNum ((fallbackBody env)^[n] (fallbackInit Machine.init)).2.factory = 3) := by
  obtain ⟨n, hn, he, hk, hstop⟩ := fallbackLoop_run env Machine.init
  refine ⟨n, hn, he, ?_, ?_⟩
  · intro k hlt
    have := hk k hlt
    unfold fallbackCond at this
    simp only [Bool.and_eq_true, decide_eq_true_eq] at this
    exact this.2
  · by_cases h10 : n = 10
    · exact Or.inl h10
    · right
      have hle : getCameraNum ((fallbackBody env)^[n] (fallbackInit Machine.init)).2.factory ≤ 3 := by
        rw [← he]
        exact fallbackLoopAux_count env _ _ (by decide)
      have hnode : ((fallbackBody env)^[n] (fallbackInit Machine.init)).1.node10 = 48 + n :=
        (iterate_advance env n (fallbackInit Machine.init)).1
      unfold fallbackCond at hstop
      simp only [Bool.and_eq_false_iff, decide_eq_false_iff_not] at hstop
      unfold getCameraNum at *
      rcases hstop with h | h
      · exfalso; apply h
        have e9 : '9'.toNat = 57 := rfl
        rw [hnode, e9]
        omega
      · omega

/-! ## Lemmas on what discovery stores and calls -/

theorem normalizeArg3_mem (v : Int) :
    normalizeArg3 v = 0 ∨ normalizeArg3 v = 90 ∨ normalizeArg3 v = 180 ∨ normalizeArg3 v = 270 := by
  unfold normalizeArg3
  split <;> omega

/-- `newCameraConfig` appends the orientation it was given, or nothing. -/
theorem newCameraConfig_orientation (env : Env) (facing : Int) (location : CStr)
    (orientation : Int) (m : Machine) :
    (newCameraConfig env facing location orientation m).factory.mCameraOrientation =
      m.factory.mCameraOrientation ++ (if probeOk env location then [orientation] else []) := by
  cases hp : probeOk env location with
  | false => rw [newCameraConfig_fail env _ _ _ _ hp]; simp
  | true => rw [newCameraConfig_ok env _ _ _ _ hp]; simp

/-- The loop body of the configuration-file branch stores only normalised
orientations. -/
theorem parseConfigLine_orientation (env : Env) (buf : List Char) (st : Args × Machine)
    (h : ∀ o ∈ st.2.factory.mCameraOrientation, o = 0 ∨ o = 90 ∨ o = 180 ∨ o = 270) :
    ∀ o ∈ (parseConfigLine env buf st).2.factory.mCameraOrientation,
      o = 0 ∨ o = 90 ∨ o = 180 ∨ o = 270 := by
  have hnew : ∀ (facing : Int) (location : CStr) (v : Int),
      ∀ o ∈ (newCameraConfig env facing location (normalizeArg3 v)
        st.2).factory.mCameraOrientation, o = 0 ∨ o = 90 ∨ o = 180 ∨ o = 270 := by
    intro facing location v o ho
    rw [newCameraConfig_orientation, List.mem_append] at ho
    rcases ho with ho | ho
    · exact h o ho
    · split at ho
      · simp only [List.mem_singleton] at ho
        rw [ho]; exact normalizeArg3_mem v
      · cases ho
  unfold parseConfigLine
  simp only
  split
  · exact h
  · split
    · exact hnew _ _ _
    · split
      · exact hnew _ _ _
      · exact h

theorem parseConfig_file_orientation (env : Env) (uninit : Args) (content : List Char)
    (m : Machine)
    (h : ∀ o ∈ m.factory.mCameraOrientation, o = 0 ∨ o = 90 ∨ o = 180 ∨ o = 270) :
    ∀ o ∈ (parseConfig env (some content) uninit m).factory.mCameraOrientation,
      o = 0 ∨ o = 90 ∨ o = 180 ∨ o = 270 := by
  rw [parseConfig_some]
  generalize fgetsLines content = lines
  generalize hst : (uninit, m) = st
  have hw : ∀ o ∈ st.2.factory.mCameraOrientation, o = 0 ∨ o = 90 ∨ o = 180 ∨ o = 270 := by
    rw [← hst]; exact h
  clear hst
  induction lines generalizing st with
  | nil => exact hw
  | cons buf lines ih =>
    rw [List.foldl_cons]
    exact ih _ (parseConfigLine_orientation env buf st hw)

/-- The loop body of the configuration-file branch consults the probe only:
replacing the other four collaborators changes nothing. -/
theorem parseConfigLine_env (env : Env) (access' : CStr → Int) (property_get' : CStr → CStr)
    (connectCamera' : List Event → CameraHardware → Int) (getCameraInfo' : Int → Int → Int)
    (buf : List Char) (st : Args × Machine) :
    parseConfigLine { env with access := access', property_get := property_get',
                               connectCamera := connectCamera',
                               getCameraInfo := getCameraInfo' } buf st =
      parseConfigLine env buf st := rfl

theorem parseLoop_env (env : Env) (access' : CStr → Int) (property_get' : CStr → CStr)
    (connectCamera' : List Event → CameraHardware → Int) (getCameraInfo' : Int → Int → Int)
    (fuel : Nat) (stream : List Char) (st : Args × Machine) :
    parseLoop { env with access := access', property_get := property_get',
                         connectCamera := connectCamera',
                         getCameraInfo := getCameraInfo' } fuel stream st =
      parseLoop env fuel stream st := by
  induction fuel generalizing stream st with
  | zero => rfl
  | succ n ih =>
    unfold parseLoop
    cases fgets 128 stream with
    | none => rfl
    | some p => exact ih _ _

/-- The calls of the loop body of the configuration-file branch are probes. -/
theorem parseConfigLine_trace (env : Env) (buf : List Char) (st : Args × Machine) :
    ∃ l, (parseConfigLine env buf st).2.trace = st.2.trace ++ l ∧
      ∀ e ∈ l, isFallbackEvent e = false := by
  have hnew : ∀ (facing : Int) (location : CStr) (v : Int),
      ∃ l, (newCameraConfig env facing location v st.2).trace = st.2.trace ++ l ∧
        ∀ e ∈ l, isFallbackEvent e = false := by
    intro facing location v
    refine ⟨_, newCameraConfig_trace env facing location v st.2, ?_⟩
    intro e he
    split at he
    · simp only [List.mem_cons, List.not_mem_nil, or_false] at he
      rcases he with he | he <;> (subst he; rfl)
    · simp only [List.mem_cons, List.not_mem_nil, or_false] at he
      subst he; rfl
  have hsame : ∃ l, st.2.trace = st.2.trace ++ l ∧ ∀ e ∈ l, isFallbackEvent e = false :=
    ⟨[], by simp, fun e he => by cases he⟩
  unfold parseConfigLine
  simp only
  split
  · exact hsame
  · split
    · exact hnew _ _ _
    · split
      · exact hnew _ _ _
      · exact hsame

theorem parseConfig_file_trace (env : Env) (uninit : Args) (content : List Char) (m : Machine) :
    ∃ l, (parseConfig env (some content) uninit m).trace = m.trace ++ l ∧
      ∀ e ∈ l, isFallbackEvent e = false := by
  rw [parseConfig_some]
  generalize fgetsLines content = lines
  have key : ∀ (lines : List (List Char)) (st : Args × Machine),
      ∃ l, (lines.foldl (fun acc buf => parseConfigLine env buf acc) st).2.trace =
        st.2.trace ++ l ∧ ∀ e ∈ l, isFallbackEvent e = false := by
    intro lines
    induction lines with
    | nil => intro st; exact ⟨[], by simp, fun e he => by cases he⟩
    | cons buf lines ih =>
      intro st
      obtain ⟨l1, h1, p1⟩ := parseConfigLine_trace env buf st
      obtain ⟨l2, h2, p2⟩ := ih (parseConfigLine env buf st)
      refine ⟨l1 ++ l2, ?_, ?_⟩
      · rw [List.foldl_cons, h2, h1, List.append_assoc]
      · intro e he
        rcases List.mem_append.mp he with he | he
        · exact p1 e he
        · exact p2 e he
  exact key lines (uninit, m)

/-- A line without a token leaves the three variables as they were. -/
theorem sscanf_blank (line : CStr) (a : Args) (h : specTokens line = []) :
    sscanf_s_s_d line a = (-1, a) ∧ commentLine line = false := by
  have ht := specTokens_scanS line
  rw [h] at ht
  cases hs : scanS line with
  | some p => rw [hs] at ht; cases ht
  | none =>
    constructor
    · unfold sscanf_s_s_d
      rw [hs]
    · cases hc : commentLine line with
      | false => rfl
      | true =>
        obtain ⟨rest, hr⟩ := commentLine_skipSpace line hc
        unfold scanS at hs
        rw [hr] at hs
        cases hs

/-- A buffer that is not skipped and from which `sscanf` stores three items
is processed the same whatever the three variables held. -/
theorem parseConfigLine_fills (env : Env) (buf : List Char) (a0 a a' : Args) (m : Machine)
    (hnc : commentLine (cstr buf) = false) (h : (sscanf_s_s_d (cstr buf) a0).1 = 3) :
    parseConfigLine env buf (a, m) = parseConfigLine env buf (a', m) := by
  unfold parseConfigLine
  simp only [hnc]
  rw [sscanf_three (cstr buf) a0 a a' h]
  simp

/-- When the first buffer that is not skipped fills the three variables, the
loop ends with the same machine whatever they held before it. -/
theorem foldl_uninit (env : Env) (lines : List (List Char)) (a a' : Args) (m : Machine)
    (h : fillsFirst lines = true) :
    (lines.foldl (fun acc buf => parseConfigLine env buf acc) (a, m)).2 =
      (lines.foldl (fun acc buf => parseConfigLine env buf acc) (a', m)).2 := by
  induction lines with
  | nil => rfl
  | cons buf rest ih =>
    rw [List.foldl_cons, List.foldl_cons]
    unfold fillsFirst at h
    by_cases hc : commentLine (cstr buf) = true
    · rw [if_pos hc] at h
      have e1 : parseConfigLine env buf (a, m) = (a, m) := by
        unfold parseConfigLine
        simp only [hc, if_true]
      have e2 : parseConfigLine env buf (a', m) = (a', m) := by
        unfold parseConfigLine
        simp only [hc, if_true]
      rw [e1, e2]
      exact ih h
    · rw [if_neg hc] at h
      have h3 : (sscanf_s_s_d (cstr buf) { arg1 := [], arg2 := [], arg3 := 0 }).1 = 3 := by
        simpa using h
      have hnc : commentLine (cstr buf) = false := by
        cases hb : commentLine (cstr buf) with
        | false => rfl
        | true => exact absurd hb hc
      rw [parseConfigLine_fills env buf _ a a' m hnc h3]

/-! ## The fallback loop: claims -/

/-- C11 (amended). Fallback discovery considers only the first ten candidate
indices: from the empty registry, whatever `access`, the property store and
the probe answer, the loop performs at most 10 iterations (one `access` call
each), and every call it makes and every record it appends names a candidate
of index at most 9, `/dev/video0` to `/dev/video9` and `hal.camera.0` to
`hal.camera.9`. -/
theorem fallback_within_ten (env : Env) (uninit : Args) :
    accessCount (parseConfig env none uninit Machine.init).trace ≤ 10 ∧
    (∀ e ∈ (parseConfig env none uninit Machine.init).trace, eventWithin 9 e = true) ∧
    (∀ d ∈ (parseConfig env none uninit Machine.init).factory.mCameraDevices,
      ∃ k, k ≤ 9 ∧ d = videoNode k) := by
  obtain ⟨n, hn, he, -, -⟩ := fallbackLoop_run env Machine.init
  rw [parseConfig_none, he]
  obtain ⟨w1, w2⟩ := iterate_within env Machine.init n hn
  refine ⟨?_, ?_, ?_⟩
  · rw [iterate_accessCount]
    simp only [fallbackInit, Machine.init, accessCount]
    omega
  · intro e hmem
    rcases w1 e hmem with h | h
    · simp [Machine.init] at h
    · exact h
  · intro d hmem
    rcases w2 d hmem with h | h
    · simp [Machine.init, CameraFactory.init] at h
    · exact h

/-- C11 as stated fails when the first three nodes do not exist: the loop goes
on to `/dev/video3`, `/dev/video4` and `/dev/video5`, checks, looks up,
probes and records them, and performs 6 iterations. -/
theorem fallback_beyond_third_counterexample :
    accessCount (parseConfig envFromVideo3 none sampleUninit Machine.init).trace = 6 ∧
    Event.access (videoNode 3) ∈ (parseConfig envFromVideo3 none sampleUninit Machine.init).trace ∧
    Event.property_get (cameraProp 3) ∈
      (parseConfig envFromVideo3 none sampleUninit Machine.init).trace ∧
    Event.v4l2Open (videoNode 3) ∈
      (parseConfig envFromVideo3 none sampleUninit Machine.init).trace ∧
    (parseConfig envFromVideo3 none sampleUninit Machine.init).factory.mCameraDevices =
      ["/dev/video3".toList, "/dev/video4".toList, "/dev/video5".toList] ∧
    (∃ e ∈ (parseConfig envFromVideo3 none sampleUninit Machine.init).trace,
      eventWithin 2 e = false) := by
  decide

/-- C12. In the fallback loop, a candidate that is accessible, has no property
value and probes successfully is appended with facing equal to the number of
records at that moment (`mCameraNum`) and orientation 0. -/
theorem fallback_default_record (env : Env) (st : Fallback × Machine)
    (hacc : env.access st.1.camera_node = 0)
    (hprop : env.property_get st.1.camera_prop = [])
    (hprobe : probeOk env st.1.camera_node = true) :
    (fallbackBody env st).2.factory =
      { mCamera := st.2.factory.mCamera ++ [none],
        mCameraDevices := st.2.factory.mCameraDevices ++ [st.1.camera_node],
        mCameraFacing := st.2.factory.mCameraFacing ++ [getCameraNum st.2.factory],
        mCameraOrientation := st.2.factory.mCameraOrientation ++ [0],
        mCameraNum := st.2.factory.mCameraNum + 1 } ∧
    (WF st.2.factory →
      (fallbackBody env st).2.factory.mCameraFacing =
        st.2.factory.mCameraFacing ++ [(st.2.factory.mCameraFacing.length : Int)]) := by
  have key := fallbackBody_factory env st
  rw [if_pos ⟨hacc, hprobe⟩, hprop] at key
  simp only [List.length_nil, ne_eq, not_true_eq_false, if_false] at key
  refine ⟨key, ?_⟩
  intro hwf
  rw [key, hwf.2.2.1]

/-- C12, with the configuration file absent and only `/dev/video0` accessible:
one record, and `getCameraInfo(0)` hands (0, 0) to the formatter. -/
theorem fallback_default_record_witness :
    envOnlyVideo0.access (fallbackInit Machine.init).1.camera_node = 0 ∧
    (fallbackBody envOnlyVideo0 (fallbackInit Machine.init)).2.factory.mCameraFacing = [0] ∧
    getCameraNum (parseConfig envOnlyVideo0 none sampleUninit Machine.init).factory = 1 ∧
    (parseConfig envOnlyVideo0 none sampleUninit Machine.init).factory.mCameraFacing = [0] ∧
    (parseConfig envOnlyVideo0 none sampleUninit Machine.init).factory.mCameraOrientation = [0] ∧
    (getCameraInfo envOnlyVideo0 0
      (parseConfig envOnlyVideo0 none sampleUninit Machine.init)).2.trace.getLast? =
      some (Event.getCameraInfo 0 0) :=
  ⟨by decide,
   by
     rw [(fallback_default_record envOnlyVideo0 (fallbackInit Machine.init) (by decide)
       (by decide) (by decide)).1]
     decide,
   by decide, by decide, by decide, by decide⟩

/-- C17. In the fallback loop the node and the property key advance in
lockstep.  Before iteration `K` the node is `/dev/video` with digit `K` and
the key is `hal.camera.` with the same digit; the iteration checks that node,
and for an accessible node looks up that key and probes that node; an
inaccessible node adds no record and causes no lookup and no probe; in both
cases both characters are incremented.  The iterations the loop performs are
the first `n` of these, for some `n ≤ 10`. -/
theorem fallback_lockstep (env : Env) (uninit : Args) (m : Machine) (K : Nat) (hK : K ≤ 9) :
    (fallbackState env m K).1.camera_node = videoNode K ∧
    (fallbackState env m K).1.camera_prop = cameraProp K ∧
    (fallbackState env m K).1.node10 = (fallbackState env m K).1.prop11 ∧
    (fallbackBody env (fallbackState env m K)).2.trace =
      (fallbackState env m K).2.trace ++ (Event.access (videoNode K) ::
        (if env.access (videoNode K) = 0 then
          Event.property_get (cameraProp K) :: Event.v4l2Open (videoNode K) ::
            (if env.v4l2Open (videoNode K) = 0 then [Event.v4l2GetFps (videoNode K)] else [])
         else [])) ∧
    (env.access (videoNode K) ≠ 0 →
      (fallbackBody env (fallbackState env m K)).2.factory = (fallbackState env m K).2.factory ∧
      (fallbackBody env (fallbackState env m K)).2.trace =
        (fallbackState env m K).2.trace ++ [Event.access (videoNode K)]) ∧
    (fallbackBody env (fallbackState env m K)).2.factory.mCameraDevices =
      (fallbackState env m K).2.factory.mCameraDevices ++
        (if env.access (videoNode K) = 0 ∧ probeOk env (videoNode K) = true then [videoNode K]
         else []) ∧
    fallbackBody env (fallbackState env m K) = fallbackState env m (K + 1) ∧
    (fallbackState env m (K + 1)).1.node10 = (fallbackState env m K).1.node10 + 1 ∧
    (fallbackState env m (K + 1)).1.prop11 = (fallbackState env m K).1.prop11 + 1 ∧
    ∃ n, n ≤ 10 ∧ parseConfig env none uninit m = (fallbackState env m n).2 := by
  obtain ⟨hnode, hprop⟩ := iterate_names env m K hK
  obtain ⟨a1, a2⟩ := iterate_advance env K (fallbackInit m)
  have hnext : fallbackBody env (fallbackState env m K) = fallbackState env m (K + 1) := by
    unfold fallbackState
    rw [Function.iterate_succ_apply']
  have htrace := fallbackBody_trace env (fallbackState env m K)
  have hfac := fallbackBody_factory env (fallbackState env m K)
  obtain ⟨b1, b2⟩ := fallbackBody_advance env (fallbackState env m K)
  have hdev := iterate_step_devices env m K hK
  obtain ⟨n, hn, he, -, -⟩ := fallbackLoop_run env m
  unfold fallbackState at *
  rw [hnode, hprop] at htrace
  rw [hnode] at hfac
  refine ⟨hnode, hprop, ?_, htrace, ?_, ?_, hnext, ?_, ?_, ⟨n, hn, ?_⟩⟩
  · rw [a1, a2]; rfl
  · intro hna
    refine ⟨?_, ?_⟩
    · rw [hfac, if_neg (fun h => hna h.1)]
    · rw [htrace, if_neg hna]
  · rw [hnext]; exact hdev
  · rw [← hnext]; exact b1
  · rw [← hnext]; exact b2
  · rw [parseConfig_none, he]

/-- C17, at iteration 1 when only `/dev/video0` exists: `/dev/video1` is
checked, nothing is looked up or probed, and the loop goes on to index 2. -/
theorem fallback_lockstep_witness :
    (1 : Nat) ≤ 9 ∧
    envOnlyVideo0.access (videoNode 1) ≠ 0 ∧
    (fallbackState envOnlyVideo0 Machine.init 1).1.camera_node = "/dev/video1".toList ∧
    (fallbackState envOnlyVideo0 Machine.init 1).1.camera_prop = "hal.camera.1".toList ∧
    (fallbackState envOnlyVideo0 Machine.init 2).2.factory =
      (fallbackState envOnlyVideo0 Machine.init 1).2.factory ∧
    (fallbackState envOnlyVideo0 Machine.init 2).2.trace =
      (fallbackState envOnlyVideo0 Machine.init 1).2.trace ++
        [Event.access "/dev/video1".toList] ∧
    (fallbackState envOnlyVideo0 Machine.init 2).1.camera_node = "/dev/video2".toList ∧
    (fallbackState envOnlyVideo0 Machine.init 2).1.camera_prop = "hal.camera.2".toList :=
  ⟨by decide, by decide,
   (fallback_lockstep envOnlyVideo0 sampleUninit Machine.init 1 (by decide)).1,
   (fallback_lockstep envOnlyVideo0 sampleUninit Machine.init 1 (by decide)).2.1,
   by decide, by decide, by decide, by decide⟩

/-- C18. From the empty registry the fallback loop stops after `n ≤ 10`
iterations, one `access` call each.  Candidate `K` (0 to 9) is examined, that
is `access` is called on `/dev/video` with digit `K`, exactly when `K < n`,
and exactly when fewer than 3 records of candidates below `K` were accepted.
The loop stops at the first of: candidate 9 examined (`n = 10`), or 3 records
accepted. -/
theorem fallback_examines_until_three (env : Env) (uninit : Args) :
    ∃ n, n ≤ 10 ∧
      parseConfig env none uninit Machine.init = (fallbackState env Machine.init n).2 ∧
      accessCount (parseConfig env none uninit Machine.init).trace = n ∧
      (∀ K, K ≤ 9 →
        (Event.access (videoNode K) ∈ (parseConfig env none uninit Machine.init).trace ↔
          K < n)) ∧
      (∀ K, K ≤ 9 →
        (Event.access (videoNode K) ∈ (parseConfig env none uninit Machine.init).trace ↔
          acceptedBelow K (parseConfig env none uninit Machine.init).factory < 3)) ∧
      (∀ k, k < n → getCameraNum (fallbackState env Machine.init k).2.factory < 3) ∧
      (n = 10 ∨ getCameraNum (parseConfig env none uninit Machine.init).factory = 3) := by
  obtain ⟨n, hn, he, hlt, hstop⟩ := fallbackLoop_stop env
  have hfin : parseConfig env none uninit Machine.init =
      ((fallbackBody env)^[n] (fallbackInit Machine.init)).2 := by
    rw [parseConfig_none, he]
  have hmem : ∀ K, K ≤ 9 →
      (Event.access (videoNode K) ∈ (parseConfig env none uninit Machine.init).trace ↔
        K < n) := by
    intro K hK
    rw [hfin]
    exact iterate_access_mem env n K hn hK
  refine ⟨n, hn, hfin, ?_, hmem, ?_, hlt, ?_⟩
  · rw [hfin, iterate_accessCount]
    simp [fallbackInit, Machine.init, accessCount]
  · intro K hK
    rw [hmem K hK, hfin, iterate_acceptedBelow env n K hn (by omega)]
    have hwf : WF ((fallbackBody env)^[min K n] (fallbackInit Machine.init)).2.factory :=
      iterate_WF env _ _ (by decide)
    have hlen : (((fallbackBody env)^[min K n]
        (fallbackInit Machine.init)).2.factory.mCameraDevices.length : Int) =
        getCameraNum ((fallbackBody env)^[min K n] (fallbackInit Machine.init)).2.factory :=
      hwf.2.1
    constructor
    · intro hKn
      have e : min K n = K := by omega
      have := hlt K hKn
      rw [e] at hlen ⊢
      omega
    · intro hacc
      by_contra hnot
      have e : min K n = n := by omega
      rw [e] at hlen hacc
      rcases hstop with h10 | h3
      · omega
      · omega
  · rw [hfin]; exact hstop

/-! ## Discovery and the handlers: further claims -/

/-- C13. The configuration-file branch stores only orientations 0, 90, 180 and
270, for every file, probe answer and content of the uninitialised variables.
The fallback branch does not check the orientation read from a property:
with the file absent, `/dev/video0` accessible and probing successfully and
`hal.camera.0` set to `1,45`, discovery ends with one record of orientation 45. -/
theorem fallback_orientation_unchecked :
    (∀ (env : Env) (uninit : Args) (content : List Char),
      ∀ o ∈ (parseConfig env (some content) uninit Machine.init).factory.mCameraOrientation,
        o = 0 ∨ o = 90 ∨ o = 180 ∨ o = 270) ∧
    envRotated.property_get (cameraProp 0) = "1,45".toList ∧
    getCameraNum (parseConfig envRotated none sampleUninit Machine.init).factory = 1 ∧
    (parseConfig envRotated none sampleUninit Machine.init).factory.mCameraFacing = [1] ∧
    (parseConfig envRotated none sampleUninit Machine.init).factory.mCameraOrientation = [45] ∧
    (getCameraInfo envRotated 0
      (parseConfig envRotated none sampleUninit Machine.init)).2.trace.getLast? =
      some (Event.getCameraInfo 1 45) := by
  refine ⟨?_, by decide, by decide, by decide, by decide, by decide⟩
  intro env uninit content
  apply parseConfig_file_orientation
  intro o ho
  simp [Machine.init, CameraFactory.init] at ho

/-- C14. The strategy is selected by `fopen` alone.  With a file, the machine
after discovery is the same whatever `access`, the property store and the
driver answer, and discovery makes no `access` and no `property_get` call, so
the fallback is not run, also when the file yields no record.  Without a file
the result is that of the fallback loop, whatever the uninitialised variables
hold.  When the first line that is not skipped fills `arg1`, `arg2` and
`arg3`, the machine does not depend on what these held uninitialised, so it is
determined by the file and the probe answers.  Otherwise it is not: `sscanf`
is not checked for what it stored and the loop reads the uninitialised
variables.  With the file of one empty line and every probe succeeding,
discovery ends with no record when `arg1` holds the empty string and with the
record (`/dev/video0`, FRONT, 90) when the three hold `front`, `/dev/video0`
and 90; with the file of the one line `back`, it records the location that
`arg2` held. -/
theorem strategy_selected_by_file (env : Env) (access' : CStr → Int)
    (property_get' : CStr → CStr) (connectCamera' : List Event → CameraHardware → Int)
    (getCameraInfo' : Int → Int → Int) (uninit uninit' : Args) (content : List Char)
    (m : Machine) :
    parseConfig { env with access := access', property_get := property_get',
                           connectCamera := connectCamera',
                           getCameraInfo := getCameraInfo' } (some content)
      uninit m = parseConfig env (some content) uninit m ∧
    (∃ l, (parseConfig env (some content) uninit m).trace = m.trace ++ l ∧
      ∀ e ∈ l, isFallbackEvent e = false) ∧
    parseConfig env (some []) uninit m = m ∧
    getCameraNum (parseConfig envAllOk (some "# no camera\n".toList) uninit
      Machine.init).factory = 0 ∧
    getCameraNum (parseConfig envAllOk none uninit Machine.init).factory = 3 ∧
    parseConfig env none uninit m = (fallbackLoop env (fallbackInit m)).2 ∧
    parseConfig env none uninit' m = parseConfig env none uninit m ∧
    (fillsFirst (fgetsLines content) = true →
      parseConfig env (some content) uninit' m = parseConfig env (some content) uninit m) ∧
    fillsFirst (fgetsLines sampleConfig) = true ∧
    fillsFirst (fgetsLines "\n".toList) = false ∧
    (parseConfig envAllOk (some "\n".toList) sampleUninit Machine.init).factory =
      CameraFactory.init ∧
    (parseConfig envAllOk (some "\n".toList) frontUninit Machine.init).factory =
      { mCamera := [none],
        mCameraDevices := ["/dev/video0".toList],
        mCameraFacing := [CAMERA_FACING_FRONT],
        mCameraOrientation := [90],
        mCameraNum := 1 } ∧
    (parseConfig envAllOk (some "back\n".toList) sampleUninit
      Machine.init).factory.mCameraDevices = [[]] ∧
    (parseConfig envAllOk (some "back\n".toList) frontUninit
      Machine.init).factory.mCameraDevices = ["/dev/video0".toList] := by
  refine ⟨?_, parseConfig_file_trace env uninit content m, rfl, ?_, ?_, rfl, rfl, ?_,
    by decide, by decide, by decide, by decide, by decide, by decide⟩
  · unfold parseConfig
    simp only
    rw [parseLoop_env]
  · have h := parseConfigLine_comment envAllOk "# no camera\n".toList (uninit, Machine.init)
      (by decide)
    rw [parseConfig_some]
    have hl : fgetsLines "# no camera\n".toList = ["# no camera\n".toList] := by decide
    rw [hl, List.foldl_cons, List.foldl_nil, h]
    rfl
  · rfl
  · intro hfill
    rw [parseConfig_some, parseConfig_some]
    exact foldl_uninit env (fgetsLines content) uninit' uninit m hfill

/-- C15. On a well-formed registry of `n` records, a `newCameraConfig` whose
probe succeeds yields a well-formed registry of `n + 1` records: each array is
the old array followed by one element, so records 0 to `n - 1` keep their
location, facing, orientation and handle, and record `n` has the given
facing, location and orientation and no handle. -/
theorem newCameraConfig_appends (env : Env) (facing : Int) (location : CStr)
    (orientation : Int) (m : Machine) (hwf : WF m.factory)
    (hp : probeOk env location = true) :
    getCameraNum (newCameraConfig env facing location orientation m).factory =
      getCameraNum m.factory + 1 ∧
    WF (newCameraConfig env facing location orientation m).factory ∧
    (newCameraConfig env facing location orientation m).factory.mCamera =
      m.factory.mCamera ++ [none] ∧
    (newCameraConfig env facing location orientation m).factory.mCameraDevices =
      m.factory.mCameraDevices ++ [location] ∧
    (newCameraConfig env facing location orientation m).factory.mCameraFacing =
      m.factory.mCameraFacing ++ [facing] ∧
    (newCameraConfig env facing location orientation m).factory.mCameraOrientation =
      m.factory.mCameraOrientation ++ [orientation] ∧
    (∀ i : Nat, (i : Int) < getCameraNum m.factory →
      (newCameraConfig env facing location orientation m).factory.mCamera[i]? =
        m.factory.mCamera[i]? ∧
      (newCameraConfig env facing location orientation m).factory.mCameraDevices[i]? =
        m.factory.mCameraDevices[i]? ∧
      (newCameraConfig env facing location orientation m).factory.mCameraFacing[i]? =
        m.factory.mCameraFacing[i]? ∧
      (newCameraConfig env facing location orientation m).factory.mCameraOrientation[i]? =
        m.factory.mCameraOrientation[i]?) ∧
    (newCameraConfig env facing location orientation m).factory.mCamera[
      (getCameraNum m.factory).toNat]? = some none ∧
    (newCameraConfig env facing location orientation m).factory.mCameraDevices[
      (getCameraNum m.factory).toNat]? = some location ∧
    (newCameraConfig env facing location orientation m).factory.mCameraFacing[
      (getCameraNum m.factory).toNat]? = some facing ∧
    (newCameraConfig env facing location orientation m).factory.mCameraOrientation[
      (getCameraNum m.factory).toNat]? = some orientation := by
  have hwf' := newCameraConfig_WF env facing location orientation m hwf
  rw [newCameraConfig_ok env _ _ _ _ hp] at hwf' ⊢
  obtain ⟨w1, w2, w3, w4⟩ := hwf
  unfold getCameraNum
  have l1 : m.factory.mCamera.length = m.factory.mCameraNum.toNat := by omega
  have l2 : m.factory.mCameraDevices.length = m.factory.mCameraNum.toNat := by omega
  have l3 : m.factory.mCameraFacing.length = m.factory.mCameraNum.toNat := by omega
  have l4 : m.factory.mCameraOrientation.length = m.factory.mCameraNum.toNat := by omega
  refine ⟨rfl, hwf', rfl, rfl, rfl, rfl, ?_, ?_, ?_, ?_, ?_⟩
  · intro i hi
    refine ⟨?_, ?_, ?_, ?_⟩ <;>
      (simp only; rw [List.getElem?_append_left (by omega)])
  · simp only; rw [← l1]; simp
  · simp only; rw [← l2]; simp
  · simp only; rw [← l3]; simp
  · simp only; rw [← l4]; simp

/-- C15, at the two-camera registry: a third record `/dev/video2` is appended. -/
theorem newCameraConfig_appends_witness :
    WF sampleMachine.factory ∧
    probeOk envAllOk "/dev/video2".toList = true ∧
    getCameraNum (newCameraConfig envAllOk CAMERA_FACING_BACK "/dev/video2".toList 90
      sampleMachine).factory = 3 ∧
    (newCameraConfig envAllOk CAMERA_FACING_BACK "/dev/video2".toList 90
      sampleMachine).factory.mCameraDevices =
      ["/dev/video0".toList, "/dev/video1".toList, "/dev/video2".toList] :=
  ⟨by decide, by decide,
   by
     rw [(newCameraConfig_appends envAllOk CAMERA_FACING_BACK "/dev/video2".toList 90
       sampleMachine (by decide) (by decide)).1]
     decide,
   by decide⟩

/-- C16. `cameraDeviceOpen` changes nothing in the registry except possibly
slot `camera_id` of `mCamera`: `mCameraNum`, the locations, facings and
orientations are unchanged, the number of slots is unchanged, and every other
slot holds what it held.  `getCameraInfo` changes nothing, so after any
sequence of handler calls `getCameraNum()` and the three arrays are what
discovery left. -/
theorem open_frame (env : Env) (module : hw_module_t) (camera_id : Int) (m : Machine) :
    getCameraNum (cameraDeviceOpen env module camera_id m).2.factory = getCameraNum m.factory ∧
    (cameraDeviceOpen env module camera_id m).2.factory.mCameraDevices =
      m.factory.mCameraDevices ∧
    (cameraDeviceOpen env module camera_id m).2.factory.mCameraFacing =
      m.factory.mCameraFacing ∧
    (cameraDeviceOpen env module camera_id m).2.factory.mCameraOrientation =
      m.factory.mCameraOrientation ∧
    (cameraDeviceOpen env module camera_id m).2.factory.mCamera.length =
      m.factory.mCamera.length ∧
    (∀ j : Nat, j ≠ camera_id.toNat →
      (cameraDeviceOpen env module camera_id m).2.factory.mCamera[j]? = m.factory.mCamera[j]?) ∧
    (getCameraInfo env camera_id m).2.factory = m.factory ∧
    (∀ calls : List Call,
      getCameraNum (runCalls env calls m).factory = getCameraNum m.factory ∧
      (runCalls env calls m).factory.mCameraDevices = m.factory.mCameraDevices ∧
      (runCalls env calls m).factory.mCameraFacing = m.factory.mCameraFacing ∧
      (runCalls env calls m).factory.mCameraOrientation = m.factory.mCameraOrientation) := by
  have hopen : (cameraDeviceOpen env module camera_id m).2.factory = m.factory ∨
      (cameraDeviceOpen env module camera_id m).2.factory =
        (ensureCamera module camera_id.toNat m).2.factory := by
    unfold cameraDeviceOpen
    split
    · exact Or.inl rfl
    · exact Or.inr rfl
  obtain ⟨f1, f2, f3, f4, f5, f6, -⟩ := ensureCamera_frame module camera_id.toNat m
  have hinfo : (getCameraInfo env camera_id m).2.factory = m.factory := by
    unfold getCameraInfo
    split <;> rfl
  have hcalls : ∀ calls : List Call,
      getCameraNum (runCalls env calls m).factory = getCameraNum m.factory ∧
      (runCalls env calls m).factory.mCameraDevices = m.factory.mCameraDevices ∧
      (runCalls env calls m).factory.mCameraFacing = m.factory.mCameraFacing ∧
      (runCalls env calls m).factory.mCameraOrientation = m.factory.mCameraOrientation := by
    intro calls
    obtain ⟨a1, a2, a3, a4, -, -⟩ := runCalls_frame env calls m
    exact ⟨a4, a1, a2, a3⟩
  unfold getCameraNum at *
  rcases hopen with h | h
  · rw [h]
    exact ⟨rfl, rfl, rfl, rfl, rfl, fun _ _ => rfl, hinfo, hcalls⟩
  · rw [h]
    exact ⟨f4, f1, f2, f3, f5, f6, hinfo, hcalls⟩

/-- C19. The three variables persist across lines: a line without a token is
not skipped, stores nothing in them, and the loop acts on what the previous
line left.  So the file `front /dev/video0 0` followed by an empty line, or by
a line of blanks and a tab, with every probe succeeding, ends with two records,
both `/dev/video0`, FRONT, orientation 0. -/
theorem stale_tokens_reused :
    (∀ (env : Env) (buf : List Char) (st : Args × Machine), specTokens (cstr buf) = [] →
      (parseConfigLine env buf st).2 =
        if st.1.arg1 = "front".toList then
          newCameraConfig env CAMERA_FACING_FRONT st.1.arg2 (normalizeArg3 st.1.arg3) st.2
        else if st.1.arg1 = "back".toList then
          newCameraConfig env CAMERA_FACING_BACK st.1.arg2 (normalizeArg3 st.1.arg3) st.2
        else st.2) ∧
    specLines "front /dev/video0 0\n\n".toList = ["front /dev/video0 0\n".toList, "\n".toList] ∧
    (parseConfig envAllOk (some "front /dev/video0 0\n\n".toList) sampleUninit
      Machine.init).factory =
      { mCamera := [none, none],
        mCameraDevices := ["/dev/video0".toList, "/dev/video0".toList],
        mCameraFacing := [CAMERA_FACING_FRONT, CAMERA_FACING_FRONT],
        mCameraOrientation := [0, 0],
        mCameraNum := 2 } ∧
    (parseConfig envAllOk (some "front /dev/video0 0\n \t \n".toList) sampleUninit
      Machine.init).factory =
      { mCamera := [none, none],
        mCameraDevices := ["/dev/video0".toList, "/dev/video0".toList],
        mCameraFacing := [CAMERA_FACING_FRONT, CAMERA_FACING_FRONT],
        mCameraOrientation := [0, 0],
        mCameraNum := 2 } := by
  refine ⟨?_, by decide, by decide, by decide⟩
  intro env buf st h
  obtain ⟨hs, hc⟩ := sscanf_blank (cstr buf) st.1 h
  unfold parseConfigLine
  simp only [hc, hs]
  by_cases h1 : st.1.arg1 = "front".toList
  · rw [if_pos h1, if_pos h1]
    rfl
  · by_cases h2 : st.1.arg1 = "back".toList
    · rw [if_neg h1, if_neg h1, if_pos h2, if_pos h2]
      rfl
    · rw [if_neg h1, if_neg h1, if_neg h2, if_neg h2]
      rfl

end android
